import Mathlib

set_option maxHeartbeats 1000000

namespace MirOp

/-! Shallow embedding of `c2rust-analyze/src/rewrite/expr/mir_op.rs`: the pointer-shape
model, the atomic rewrite catalog, the cast synthesizer (`CastBuilder`), the zero-fill
plan deriver (`ZeroizeType::from_ty`), and the MIR expression walker
(`ExprRewriteVisitor`).  External collaborators (permission/flag tables, the
`type_desc` conversion functions, type layout) are read-only inputs of the walk and are
modelled as explicit fields of a context record. -/

/-- Ownership axis of a pointer shape (`type_desc::Ownership`). -/
inductive Ownership where
  | Raw
  | RawMut
  | Imm
  | Mut
  | Cell
  | Rc
  | Box
deriving DecidableEq, Repr

/-- Multiplicity axis of a pointer shape (`type_desc::Quantity`). -/
inductive Quantity where
  | Single
  | Slice
  | OffsetPtr
  | Array
deriving DecidableEq, Repr

mutual
/-- Model of a rustc `Ty` as inspected by this module: integer/boolean primitives,
struct-like ADTs with named fields, fixed arrays, references (carrying a region number
that lifetime erasure clears), raw pointers, and an opaque remainder. -/
inductive RTy where
  | int
  | uint
  | bool
  | adt (isStruct : Bool) (name : String) (fields : RFields)
  | array (elem : RTy)
  | ref (region : Nat) (mutbl : Bool) (inner : RTy)
  | rawPtr (mutbl : Bool) (inner : RTy)
  | other (id : Nat)
deriving DecidableEq, Repr

/-- Named-field list of a struct type (the `variant.fields` sequence, in declaration
order). -/
inductive RFields where
  | nil
  | cons (name : String) (ty : RTy) (rest : RFields)
deriving DecidableEq, Repr
end

mutual
/-- Modelled from the spec: rustc `TyCtxt::erase_regions` (not part of this module's
source), which clears every lifetime/region annotation in a type and leaves all other
structure intact.  Pointee types are compared modulo this erasure. -/
def RTy.erase_regions : RTy → RTy
  | .int => .int
  | .uint => .uint
  | .bool => .bool
  | .adt s n fs => .adt s n (RFields.erase_regions fs)
  | .array e => .array (RTy.erase_regions e)
  | .ref _ m inner => .ref 0 m (RTy.erase_regions inner)
  | .rawPtr m inner => .rawPtr m (RTy.erase_regions inner)
  | .other i => .other i

/-- Region erasure on a field list. -/
def RFields.erase_regions : RFields → RFields
  | .nil => .nil
  | .cons n t rest => .cons n (RTy.erase_regions t) (RFields.erase_regions rest)
end

/-- Modelled from the spec: `Ownership::is_copy` (defined in c2rust-analyze's
`type_desc` module, outside this source).  An ownership kind can be freely duplicated
when its runtime representation is a `Copy` type: raw pointers and shared references
(including shared `&Cell` references) are; owning kinds (`Box`, `Rc`) and unique
`&mut` borrows are not. -/
def Ownership.is_copy : Ownership → Bool
  | .Raw | .RawMut | .Imm | .Cell => true
  | .Mut | .Rc | .Box => false

/-- Pointer shape (`type_desc::TypeDesc`): the four axes plus the pointee type. -/
structure TypeDesc where
  own : Ownership
  qty : Quantity
  dyn_owned : Bool
  option : Bool
  pointee_ty : RTy
deriving DecidableEq, Repr

mutual
/-- Zero-fill plan (`ZeroizeType`). -/
inductive ZeroizeType where
  | int
  | bool
  | array (elem : ZeroizeType)
  | struct (name : String) (fields : ZFields)
deriving DecidableEq, Repr

/-- Named per-field zero-fill plans, in declaration order. -/
inductive ZFields where
  | nil
  | cons (name : String) (zero : ZeroizeType) (rest : ZFields)
deriving DecidableEq, Repr
end

mutual
/-- `ZeroizeType::from_ty`: pure structural recursion from a pointee type to a
zero-fill plan; fails (returns `none`) on non-struct ADTs and on any type that is not
an integer, boolean, zeroable struct, or array thereof. -/
def ZeroizeType.from_ty : RTy → Option ZeroizeType
  | .int => some .int
  | .uint => some .int
  | .bool => some .bool
  | .adt isStruct name fields =>
    if isStruct then
      match ZeroizeType.from_fields fields with
      | some zfs => some (.struct name zfs)
      | none => none
    else none
  | .array elem =>
    match ZeroizeType.from_ty elem with
    | some z => some (.array z)
    | none => none
  | .ref .. => none
  | .rawPtr .. => none
  | .other _ => none

/-- Field-wise zero-fill derivation; fails as soon as one field fails. -/
def ZeroizeType.from_fields : RFields → Option ZFields
  | .nil => some .nil
  | .cons n t rest =>
    match ZeroizeType.from_ty t with
    | some z =>
      match ZeroizeType.from_fields rest with
      | some zs => some (.cons n z zs)
      | none => none
    | none => none
end

/-- Atomic rewrite catalog (`RewriteKind`).  Debug-format payloads of the original are
kept as their underlying data. -/
inductive RewriteKind where
  | OffsetSlice (mutbl : Bool)
  | OptionMapOffsetSlice (mutbl : Bool)
  | SliceFirst (mutbl : Bool)
  | Reborrow (mutbl : Bool)
  | RemoveAsPtr
  | RemoveCast
  | RawToRef (mutbl : Bool)
  | IsNullToIsNone
  | IsNullToConstFalse
  | PtrNullToNone
  | ZeroAsPtrToNone
  | MemcpySafe (elem_size : Nat) (dest_single : Bool) (src_single : Bool)
  | MemsetZeroize (zero_ty : ZeroizeType) (elem_size : Nat) (dest_single : Bool)
  | MallocSafe (zero_ty : ZeroizeType) (elem_size : Nat) (single : Bool)
  | FreeSafe (single : Bool)
  | ReallocSafe (zero_ty : ZeroizeType) (elem_size : Nat) (src_single : Bool) (dest_single : Bool)
  | CallocSafe (zero_ty : ZeroizeType) (elem_size : Nat) (single : Bool)
  | OptionUnwrap
  | OptionSome
  | OptionMapBegin
  | OptionMapEnd
  | OptionDowngrade (mutbl : Bool) (deref : Bool)
  | DynOwnedUnwrap
  | DynOwnedTake
  | DynOwnedWrap
  | DynOwnedDowngrade (mutbl : Bool)
  | CastRefToRaw (mutbl : Bool)
  | CastRawToRaw (to_mutbl : Bool)
  | UnsafeCastRawToRef (mutbl : Bool)
  | CastRawMutToCellPtr (ty : String)
  | CellNew
  | CellGet
  | CellSet
  | CellFromMut
  | AsPtr
deriving DecidableEq, Repr

/-- Printable name of a `Quantity`, standing in for the debug formatting used in the
`Array` error message. -/
def Quantity.name : Quantity → String
  | .Single => "Single"
  | .Slice => "Slice"
  | .OffsetPtr => "OffsetPtr"
  | .Array => "Array"

/-- One step of `CastBuilder::cast_ownership_one_step`.  Emitted rewrites are returned
in order; the `Except` result is `ok none` for "no step possible" (the Rust `None`),
`ok (some o)` for a step advancing the running ownership to `o`, and `error` for the
unimplemented `Rc` downgrades. -/
def cast_ownership_one_step (printTy : RTy → String) (from_ to_ : TypeDesc)
    (early : Bool) : List RewriteKind × Except String (Option Ownership) :=
  match from_.own with
  | .Box =>
    match to_.own with
    | .Raw | .Imm => ([.Reborrow false], .ok (some .Imm))
    | .RawMut | .Mut | .Cell => ([.Reborrow true], .ok (some .Mut))
    | _ => ([], .ok none)
  | .Rc =>
    match to_.own with
    | .Imm | .Raw | .RawMut => ([], .error "TODO: cast Rc to Imm")
    | _ => ([], .ok none)
  | .Mut =>
    match to_.own with
    | .Imm | .Raw => ([.Reborrow false], .ok (some .Imm))
    | .Cell => ([.CellFromMut], .ok (some .Cell))
    | .RawMut =>
      if !early then ([.CastRefToRaw true], .ok (some .RawMut)) else ([], .ok none)
    | _ => ([], .ok none)
  | .Cell =>
    match to_.own with
    | .RawMut | .Raw =>
      if !early then ([.AsPtr], .ok (some .RawMut)) else ([], .ok none)
    | _ => ([], .ok none)
  | .Imm =>
    match to_.own with
    | .Raw | .RawMut =>
      if !early then ([.CastRefToRaw false], .ok (some .Raw)) else ([], .ok none)
    | _ => ([], .ok none)
  | .RawMut =>
    match to_.own with
    | .Raw | .Imm =>
      if !early then ([.CastRawToRaw false], .ok (some .Raw)) else ([], .ok none)
    | .Mut =>
      if !early then ([.UnsafeCastRawToRef true], .ok (some .Mut)) else ([], .ok none)
    | .Cell =>
      if !early then
        ([.CastRawMutToCellPtr (printTy to_.pointee_ty), .UnsafeCastRawToRef false],
         .ok (some .Cell))
      else ([], .ok none)
    | _ => ([], .ok none)
  | .Raw =>
    match to_.own with
    | .RawMut | .Mut =>
      if !early then ([.CastRawToRaw true], .ok (some .RawMut)) else ([], .ok none)
    | .Imm =>
      if !early then ([.UnsafeCastRawToRef false], .ok (some .Imm)) else ([], .ok none)
    | _ => ([], .ok none)

/-- The `while from.own != to.own` loop of `CastBuilder::cast_ownership`, written with
explicit fuel.  Every step strictly advances toward `to.own` and no chain is longer
than two steps, so any fuel of at least 7 realizes the source loop exactly. -/
def cast_ownership_go (printTy : RTy → String) (from_ to_ : TypeDesc) (early : Bool) :
    Nat → List RewriteKind × Except String Ownership
  | 0 => ([], .ok from_.own)
  | fuel + 1 =>
    if from_.own = to_.own then ([], .ok from_.own)
    else
      match cast_ownership_one_step printTy from_ to_ early with
      | (ops, .error e) => (ops, .error e)
      | (ops, .ok none) => (ops, .ok from_.own)
      | (ops, .ok (some newOwn)) =>
        let (ops2, r2) :=
          cast_ownership_go printTy { from_ with own := newOwn } to_ early fuel
        (ops ++ ops2, r2)

/-- `CastBuilder::cast_ownership`: returns the ownership reached (or an error) along
with the rewrites emitted on the way. -/
def cast_ownership (printTy : RTy → String) (from_ to_ : TypeDesc) (early : Bool) :
    List RewriteKind × Except String Ownership :=
  cast_ownership_go printTy from_ to_ early 7

/-- The `while from.qty != to.qty` loop of `try_build_cast_desc_desc`, written with
explicit fuel (no iteration chain is longer than one step, so fuel 5 is slack).
`ok q` returns the multiplicity the running shape ends the phase with (a `break`
leaves it unchanged); `error` models the `return Err` for `Array` sources and the
`unreachable` arm. -/
def cast_quantity_go (own : Ownership) (fromQty toQty : Quantity) :
    Nat → List RewriteKind × Except String Quantity
  | 0 => ([], .ok fromQty)
  | fuel + 1 =>
    if fromQty = toQty then ([], .ok fromQty)
    else
      let opt_mutbl : Option Bool :=
        match own with
        | .Imm | .Cell => some false
        | .Mut => some true
        | _ => none
      match fromQty, toQty with
      | .Array, _ => ([], .error ("TODO: cast Array to " ++ toQty.name))
      | .Slice, .OffsetPtr | .OffsetPtr, .Slice => cast_quantity_go own toQty toQty fuel
      | _, .Single =>
        match opt_mutbl with
        | some mutbl =>
          let (ops, r) := cast_quantity_go own .Single toQty fuel
          (.SliceFirst mutbl :: ops, r)
        | none => ([], .ok fromQty)
      | .Single, _ => ([], .ok .Single)
      | _, .Array => ([], .ok fromQty)
      | _, _ => ([], .error "unreachable quantity cast")

/-- Entry to the quantity-resolution loop with its (slack) fuel. -/
def cast_quantity (own : Ownership) (fromQty toQty : Quantity) :
    List RewriteKind × Except String Quantity :=
  cast_quantity_go own fromQty toQty 5

/-- The pre-unwrap ownership downgrade block of `try_build_cast_desc_desc`:
downgrade ownership before unwrapping the `Option` when possible, so the later
unwrap does not consume the input.  (The `Rc if from.own == Rc` arm of the source
only logs that the clone rewrite is unimplemented; the remaining arms fall through
without a downgrade.) -/
def tb_downgrade_for_unwrap (from1 to_ : TypeDesc) : List RewriteKind × TypeDesc :=
  if from1.option && from1.own != to_.own && !from1.own.is_copy then
    match to_.own with
    | .Raw | .Imm =>
      ([RewriteKind.OptionDowngrade false true], { from1 with own := Ownership.Imm })
    | .RawMut | .Cell | .Mut =>
      ([RewriteKind.OptionDowngrade true true], { from1 with own := Ownership.Mut })
    | .Rc | .Box => ([], from1)
  else ([], from1)

/-- The nullability-resolution block of `try_build_cast_desc_desc`: unwrap when only
the source is nullable, or enter mapped mode when both sides are; the third component
is the `in_option_map` flag. -/
def tb_unwrap_nullable (from2 to_ : TypeDesc) : List RewriteKind × TypeDesc × Bool :=
  if from2.option && !to_.option then
    ([RewriteKind.OptionUnwrap], { from2 with option := false }, false)
  else if from2.option && to_.option then
    ([RewriteKind.OptionMapBegin], { from2 with option := false }, true)
  else ([], from2, false)

/-- The source-side dynamic-ownership resolution block of
`try_build_cast_desc_desc`. -/
def tb_resolve_dyn_owned (from3 to_ : TypeDesc) : List RewriteKind × TypeDesc :=
  if from3.dyn_owned then
    (match to_.own with
      | .Raw | .Imm => [RewriteKind.DynOwnedDowngrade false]
      | .RawMut | .Cell | .Mut => [RewriteKind.DynOwnedDowngrade true]
      | .Rc | .Box => [RewriteKind.DynOwnedUnwrap],
     { from3 with dyn_owned := false })
  else ([], from3)

/-- `CastBuilder::try_build_cast_desc_desc`: the phase-ordered cast synthesizer.
Returns every rewrite emitted through the `emit` callback (in order, including those
emitted before a failure) together with the overall outcome.  Error strings keep the
fixed prefix of the original messages; the debug-formatted payloads are omitted. -/
def try_build_cast_desc_desc (printTy : RTy → String) (from0 to_ : TypeDesc) :
    List RewriteKind × Except String Unit :=
  if RTy.erase_regions from0.pointee_ty ≠ RTy.erase_regions to_.pointee_ty then
    ([], .error "pointee type mismatch")
  else
    -- Lifetime differences are ignored from here on: overwriting `from.pointee_ty`
    -- lets the final `from == to` check succeed.
    let from1 : TypeDesc := { from0 with pointee_ty := to_.pointee_ty }
    if from1 = to_ then ([], .ok ())
    else
      -- Downgrade ownership before unwrapping the `Option` when possible.
      let (ops1, from2) := tb_downgrade_for_unwrap from1 to_
      -- Nullability resolution: unwrap, or enter mapped mode.
      let (ops2, from3, in_option_map) := tb_unwrap_nullable from2 to_
      -- Dynamic-ownership resolution on the source side.
      let (ops3, from4) := tb_resolve_dyn_owned from3 to_
      -- Early ownership casts.
      match cast_ownership printTy from4 to_ true with
      | (ops4, .error e) => (ops1 ++ ops2 ++ ops3 ++ ops4, .error e)
      | (ops4, .ok own4) =>
        let from5 : TypeDesc := { from4 with own := own4 }
        -- Safe casts that change `Quantity`.
        match cast_quantity from5.own from5.qty to_.qty with
        | (ops5, .error e) => (ops1 ++ ops2 ++ ops3 ++ ops4 ++ ops5, .error e)
        | (ops5, .ok qty5) =>
          let from6 : TypeDesc := { from5 with qty := qty5 }
          -- Late ownership casts.
          match cast_ownership printTy from6 to_ false with
          | (ops6, .error e) => (ops1 ++ ops2 ++ ops3 ++ ops4 ++ ops5 ++ ops6, .error e)
          | (ops6, .ok own6) =>
            let from7 : TypeDesc := { from6 with own := own6 }
            -- Dynamic-ownership resolution on the target side.
            let (ops7, from8) :=
              if to_.dyn_owned then
                ([RewriteKind.DynOwnedWrap], { from7 with dyn_owned := true })
              else ([], from7)
            -- Nullability closure.  In mapped mode the source asserts that the
            -- running shape is unwrapped and the target nullable; both always hold.
            let (ops8, from9) :=
              if in_option_map then
                ([RewriteKind.OptionMapEnd], { from8 with option := true })
              else if !from8.option && to_.option then
                ([RewriteKind.OptionSome], { from8 with option := true })
              else ([], from8)
            let ops := ops1 ++ ops2 ++ ops3 ++ ops4 ++ ops5 ++ ops6 ++ ops7 ++ ops8
            if from9 = to_ then (ops, .ok ())
            else (ops, .error "unsupported cast kind")

/-- `CastBuilder::build_cast_desc_desc`: unwraps the synthesizer's result, so a failed
synthesis is a panic (modelled as `error`) and any rewrites already emitted are
abandoned with it. -/
def build_cast_desc_desc (printTy : RTy → String) (from_ to_ : TypeDesc) :
    Except String (List RewriteKind) :=
  match try_build_cast_desc_desc printTy from_ to_ with
  | (ops, .ok ()) => .ok ops
  | (_, .error e) => .error e

mutual
/-- Labeled type (`LTy`): the underlying type, the `PointerId` label (`none` models
`PointerId::NONE`), and the labeled argument types (for pointers, the pointee). -/
inductive LTy where
  | mk (ty : RTy) (label : Option Nat) (args : LTys)
deriving DecidableEq, Repr

/-- Argument list of an `LTy`. -/
inductive LTys where
  | nil
  | cons (head : LTy) (tail : LTys)
deriving DecidableEq, Repr
end

/-- Underlying type of a labeled type. -/
def LTy.ty : LTy → RTy
  | .mk t _ _ => t

/-- Pointer label of a labeled type. -/
def LTy.label : LTy → Option Nat
  | .mk _ l _ => l

/-- Arguments of a labeled type. -/
def LTy.args : LTy → LTys
  | .mk _ _ a => a

instance : Inhabited LTy := ⟨.mk (.other 0) none .nil⟩

/-- `lty.args[0]`: the first argument (the source indexes and debug-asserts the length
is 1; an empty argument list yields the default, standing in for the panic that cannot
occur). -/
def LTy.arg0 : LTy → LTy
  | .mk _ _ (.cons h _) => h
  | .mk _ _ .nil => default

/-- `matches!(ty.kind(), TyKind::Ref(..) | TyKind::RawPtr(..))`. -/
def RTy.is_ref_or_raw : RTy → Bool
  | .ref .. | .rawPtr .. => true
  | _ => false

/-- `matches!(ty.kind(), TyKind::RawPtr(..))`. -/
def RTy.is_raw_ptr : RTy → Bool
  | .rawPtr .. => true
  | _ => false

/-- `Ty::is_any_ptr`: a reference or raw pointer (function pointers are outside this
model and fold into `other`). -/
def RTy.is_any_ptr : RTy → Bool := RTy.is_ref_or_raw

/-- The `PermissionSet` bits this module reads. -/
structure PermissionSet where
  NON_NULL : Bool := false
  OFFSET_ADD : Bool := false
  OFFSET_SUB : Bool := false
  USED : Bool := false
deriving DecidableEq, Repr

/-- The `FlagSet` bits this module reads. -/
structure FlagSet where
  FIXED : Bool := false
  CELL : Bool := false
deriving DecidableEq, Repr

/-- The per-function suppression-reason bitset (`DontRewriteFnReason`); only the
`COMPLEX_CELL` bit is set by this module. -/
structure DontRewriteFnReason where
  complex_cell : Bool := false
deriving DecidableEq, Repr

/-- `DontRewriteFnReason::empty()`. -/
def DontRewriteFnReason.empty : DontRewriteFnReason := {}

/-- The `COMPLEX_CELL` constant. -/
def DontRewriteFnReason.COMPLEX_CELL : DontRewriteFnReason := ⟨true⟩

/-- Bitset insertion (`BitFlags::insert`). -/
def DontRewriteFnReason.insert (a b : DontRewriteFnReason) : DontRewriteFnReason :=
  ⟨a.complex_cell || b.complex_cell⟩

/-- A MIR program point. -/
structure Location where
  block : Nat
  statement_index : Nat
deriving DecidableEq, Repr

/-- Sub-location path step (`SubLoc`). -/
inductive SubLoc where
  | Dest
  | Rvalue
  | CallArg (i : Nat)
  | RvalueOperand (i : Nat)
  | RvaluePlace (i : Nat)
  | OperandPlace
  | PlaceDerefPointer
  | PlaceFieldBase
  | PlaceIndexArray
deriving DecidableEq, Repr

/-- An emitted rewrite together with its sub-location path (`MirRewrite`). -/
structure MirRewrite where
  kind : RewriteKind
  sub_loc : List SubLoc
deriving DecidableEq, Repr

/-- How a place is accessed (`PlaceAccess`). -/
inductive PlaceAccess where
  | Imm
  | Mut
  | Move
deriving DecidableEq, Repr

/-- `PlaceAccess::from_bool`. -/
def PlaceAccess.from_bool (mutbl : Bool) : PlaceAccess :=
  if mutbl then .Mut else .Imm

/-- `PlaceAccess::from_mutbl` (mutability modelled as `Bool`, `true` = `Mut`). -/
def PlaceAccess.from_mutbl (mutbl : Bool) : PlaceAccess :=
  if mutbl then .Mut else .Imm

/-- A place projection element.  Only the distinctions this module dispatches on are
kept: deref, field, the three index/slice forms, and downcast. -/
inductive PlaceElem where
  | deref
  | field (idx : Nat)
  | index
  | constantIndex
  | subslice
  | downcast
deriving DecidableEq, Repr

/-- A MIR place: a local plus a projection chain. -/
structure Place where
  local_ : Nat
  projection : List PlaceElem
deriving DecidableEq, Repr

/-- `Place::is_indirect`: some projection step is a dereference. -/
def Place.is_indirect (pl : Place) : Bool := pl.projection.contains .deref

/-- A constant operand, with whatever `util::is_null_const_operand` decides about it
and its type. -/
structure ConstOperand where
  is_null : Bool
  lty : LTy
deriving DecidableEq, Repr

/-- A MIR operand. -/
inductive Operand where
  | copy (pl : Place)
  | move (pl : Place)
  | constant (c : ConstOperand)
deriving DecidableEq, Repr

instance : Inhabited Operand := ⟨.constant ⟨false, default⟩⟩

/-- `Operand::place`. -/
def Operand.place : Operand → Option Place
  | .copy pl | .move pl => some pl
  | .constant _ => none

/-- `util::is_null_const_operand`. -/
def is_null_const_operand : Operand → Bool
  | .constant c => c.is_null
  | _ => false

/-- Borrow kinds as dispatched by `visit_rvalue` (`BorrowKind::Mut` vs the rest). -/
inductive BorrowKind where
  | shared
  | shallow
  | unique
  | mut'
deriving DecidableEq, Repr

/-- A MIR rvalue (`repeat'` models `Rvalue::Repeat`; the repeat count, borrow region
and cast kind are unused by the walker and omitted; the cast's target type is kept
for the `is_unsafe_ptr` test). -/
inductive Rvalue where
  | use (op : Operand)
  | repeat' (op : Operand)
  | ref (kind : BorrowKind) (pl : Place)
  | threadLocalRef
  | addressOf (mutbl : Bool) (pl : Place)
  | len (pl : Place)
  | cast (op : Operand) (castTy : RTy)
  | binaryOp (op1 op2 : Operand)
  | checkedBinaryOp (op1 op2 : Operand)
  | nullaryOp
  | unaryOp (op : Operand)
  | discriminant (pl : Place)
  | aggregate (ops : List Operand)
  | shallowInitBox (op : Operand)
  | copyForDeref (pl : Place)
deriving DecidableEq, Repr

/-- A MIR statement, as dispatched by `visit_statement`. -/
inductive StatementKind where
  | assign (pl : Place) (rv : Rvalue)
  | fakeRead
  | setDiscriminant
  | deinit
  | storageLive
  | storageDead
  | retag
  | ascribeUserType
  | coverage
  | copyNonOverlapping
  | nop
deriving DecidableEq, Repr

/-- Declared signature of an analyzed function (`LFnSig`): per-argument and return
labeled types. -/
structure LFnSig where
  inputs : List LTy
  output : LTy
deriving DecidableEq, Repr

/-- Callee identity, as classified by `util::ty_callee` (an external helper); the
variants this walker does not special-case fold into `otherCallee`. -/
inductive Callee where
  | ptrOffset
  | sliceAsPtr (elem_ty : RTy)
  | localDef (def_id : Nat)
  | memcpy
  | memset
  | isNull
  | null
  | malloc
  | calloc
  | free
  | realloc
  | otherCallee
deriving DecidableEq, Repr

/-- A MIR terminator, as dispatched by `visit_terminator`.  For calls, the callee
classification, arguments and destination place are retained. -/
inductive TerminatorKind where
  | goto
  | switchInt
  | resume
  | abort
  | ret
  | unreachable
  | drop
  | dropAndReplace
  | call (callee : Callee) (args : List Operand) (destination : Place)
  | assert
  | yield
  | generatorDrop
  | falseEdge
  | falseUnwind
  | inlineAsm
deriving DecidableEq, Repr

/-- Read-only context of one function-body walk: the MIR typing tables and the
external collaborators (`AnalysisCtxt` lookups, permission/flag tables, pointee-type
inference, `type_desc` conversions, layout, pretty-printing).  All of these are
read-only inputs of the walk, so they are modelled as unconstrained functions. -/
structure Ctx where
  local_tys : Nat → LTy
  addr_of_local : Nat → Option Nat
  perms : Option Nat → PermissionSet
  flags : Option Nat → FlagSet
  pointee_sole_lty : Option Nat → Option LTy
  type_of_place : Place → LTy
  type_of_rvalue : Rvalue → Location → LTy
  projection_lty : LTy → PlaceElem → LTy
  fn_sig : Nat → Option LFnSig
  perms_to_desc : RTy → PermissionSet → FlagSet → TypeDesc
  local_perms_to_desc : RTy → PermissionSet → FlagSet → TypeDesc
  perms_to_desc_with_pointee : RTy → RTy → PermissionSet → FlagSet → TypeDesc
  layout_size : RTy → Nat
  print_ty : RTy → String

/-- Mutable state of the visitor (`ExprRewriteVisitor`): current location, the
sub-location path, the accumulated rewrites (kept as a flat ordered list of
location/rewrite pairs), and the suppression-reason set.  A Rust panic is modelled as
the `Except.error` of the surrounding computation. -/
structure VState where
  loc : Location
  sub_loc : List SubLoc
  rewrites : List (Location × MirRewrite)
  errors : DontRewriteFnReason
deriving DecidableEq, Repr

/-- `ExprRewriteVisitor::emit`: record a rewrite at the current location with the
current sub-location path. -/
def VState.emit (s : VState) (rw : RewriteKind) : VState :=
  { s with rewrites := s.rewrites ++ [(s.loc, ⟨rw, s.sub_loc⟩)] }

/-- `ExprRewriteVisitor::err`: record a suppression reason. -/
def VState.err (s : VState) (reason : DontRewriteFnReason) : VState :=
  { s with errors := s.errors.insert reason }

/-- `ExprRewriteVisitor::enter`: push a sub-location step, run the body, pop it.  (On
a panic the pop never runs, exactly as in the source.) -/
def enter (sub : SubLoc) (f : VState → Except String VState) (s : VState) :
    Except String VState := do
  let s1 := { s with sub_loc := s.sub_loc ++ [sub] }
  let s2 ← f s1
  pure { s2 with sub_loc := s2.sub_loc.dropLast }

/-- `acx.type_of` on an operand: the place's type for copies/moves, the constant's
type otherwise. -/
def type_of_operand (ctx : Ctx) : Operand → LTy
  | .copy pl | .move pl => ctx.type_of_place pl
  | .constant c => c.lty

/-- `ExprRewriteVisitor::pointee_lty`: the inferred pointee type if available, else
the pointee as written in the labeled type; `none` for non-pointers. -/
def pointee_lty (ctx : Ctx) (lty : LTy) : Option LTy :=
  if !lty.ty.is_ref_or_raw then none
  else
    match lty.label, ctx.pointee_sole_lty lty.label with
    | some _, some p => some p
    | _, _ => some lty.arg0

/-- `ExprRewriteVisitor::is_nullable`. -/
def is_nullable (ctx : Ctx) (ptr : Option Nat) : Bool :=
  ptr.isSome && !(ctx.perms ptr).NON_NULL && !(ctx.flags ptr).FIXED

/-- `ExprRewriteVisitor::is_dyn_owned`. -/
def is_dyn_owned (ctx : Ctx) (lty : LTy) : Bool :=
  if !lty.ty.is_ref_or_raw then false
  else if lty.label.isNone then false
  else
    let perms := ctx.perms lty.label
    let flags := ctx.flags lty.label
    if flags.FIXED then false
    else (ctx.perms_to_desc lty.ty perms flags).dyn_owned

/-- `CastBuilder::lty_to_desc`. -/
def lty_to_desc (ctx : Ctx) (lty : LTy) : TypeDesc :=
  ctx.perms_to_desc lty.ty (ctx.perms lty.label) (ctx.flags lty.label)

/-- `CastBuilder::build_cast_lty_desc`. -/
def build_cast_lty_desc (ctx : Ctx) (from_lty : LTy) (to_ : TypeDesc) :
    Except String (List RewriteKind) :=
  let from_ := ctx.perms_to_desc_with_pointee to_.pointee_ty from_lty.ty
    (ctx.perms from_lty.label) (ctx.flags from_lty.label)
  build_cast_desc_desc ctx.print_ty from_ to_

/-- `CastBuilder::build_cast_desc_lty`. -/
def build_cast_desc_lty (ctx : Ctx) (from_ : TypeDesc) (to_lty : LTy) :
    Except String (List RewriteKind) :=
  let to_ := ctx.perms_to_desc_with_pointee from_.pointee_ty to_lty.ty
    (ctx.perms to_lty.label) (ctx.flags to_lty.label)
  build_cast_desc_desc ctx.print_ty from_ to_

/-- `CastBuilder::build_cast_lty_lty`: the shape-reconciliation entry point on two
labeled types. -/
def build_cast_lty_lty (ctx : Ctx) (from_lty to_lty : LTy) :
    Except String (List RewriteKind) :=
  if from_lty.label.isNone && to_lty.label.isNone then
    -- Input and output are both non-pointers.
    .ok []
  else
    let from_raw := from_lty.ty.is_raw_ptr
    let to_raw := to_lty.ty.is_raw_ptr
    if !from_raw && !to_raw then
      -- Workaround for already-safe code: no rewrite.
      .ok []
    else
      let from_fixed := (ctx.flags from_lty.label).FIXED
      let to_fixed := (ctx.flags to_lty.label).FIXED
      match from_fixed, to_fixed with
      | false, false =>
        build_cast_desc_desc ctx.print_ty (lty_to_desc ctx from_lty) (lty_to_desc ctx to_lty)
      | false, true => build_cast_desc_lty ctx (lty_to_desc ctx from_lty) to_lty
      | true, false => build_cast_lty_desc ctx from_lty (lty_to_desc ctx to_lty)
      | true, true =>
        -- Both sides are FIXED: the existing code is assumed valid.
        .ok []

/-- `CastBuilder::build_cast_lty_adjust`. -/
def build_cast_lty_adjust (ctx : Ctx) (from_lty : LTy) (to_adjust : TypeDesc → TypeDesc) :
    Except String (List RewriteKind) :=
  if from_lty.label.isNone then .ok []
  else if !from_lty.ty.is_raw_ptr then .ok []
  else if (ctx.flags from_lty.label).FIXED then .ok []
  else
    let from_ := lty_to_desc ctx from_lty
    build_cast_desc_desc ctx.print_ty from_ (to_adjust from_)

/-- `CastBuilder::build_cast_adjust_lty`. -/
def build_cast_adjust_lty (ctx : Ctx) (from_adjust : TypeDesc → TypeDesc) (to_lty : LTy) :
    Except String (List RewriteKind) :=
  if to_lty.label.isNone then .ok []
  else if !to_lty.ty.is_raw_ptr then .ok []
  else if (ctx.flags to_lty.label).FIXED then .ok []
  else
    let to_ := lty_to_desc ctx to_lty
    build_cast_desc_desc ctx.print_ty (from_adjust to_) to_

/-- Append a batch of rewrites produced by a cast builder at the current location. -/
def VState.emit_ops (s : VState) (ops : List RewriteKind) : VState :=
  ops.foldl VState.emit s

/-- `ExprRewriteVisitor::emit_cast_desc_desc` (via `build_cast_desc_desc`, which
unwraps: failure is a panic). -/
def emit_cast_desc_desc (ctx : Ctx) (from_ to_ : TypeDesc) (s : VState) :
    Except String VState := do
  let ops ← build_cast_desc_desc ctx.print_ty from_ to_
  pure (s.emit_ops ops)

/-- `ExprRewriteVisitor::emit_cast_lty_desc`. -/
def emit_cast_lty_desc (ctx : Ctx) (from_lty : LTy) (to_ : TypeDesc) (s : VState) :
    Except String VState := do
  let ops ← build_cast_lty_desc ctx from_lty to_
  pure (s.emit_ops ops)

/-- `ExprRewriteVisitor::emit_cast_lty_lty`. -/
def emit_cast_lty_lty (ctx : Ctx) (from_lty to_lty : LTy) (s : VState) :
    Except String VState := do
  let ops ← build_cast_lty_lty ctx from_lty to_lty
  pure (s.emit_ops ops)

/-- `ExprRewriteVisitor::emit_cast_lty_adjust`. -/
def emit_cast_lty_adjust (ctx : Ctx) (from_lty : LTy) (to_adjust : TypeDesc → TypeDesc)
    (s : VState) : Except String VState := do
  let ops ← build_cast_lty_adjust ctx from_lty to_adjust
  pure (s.emit_ops ops)

/-- `ExprRewriteVisitor::emit_cast_adjust_lty`. -/
def emit_cast_adjust_lty (ctx : Ctx) (from_adjust : TypeDesc → TypeDesc) (to_lty : LTy)
    (s : VState) : Except String VState := do
  let ops ← build_cast_adjust_lty ctx from_adjust to_lty
  pure (s.emit_ops ops)
/-- `ExprRewriteVisitor::visit_place_ref`, on the reversed projection list (the source
splits off the last projection and recurses on the prefix; recursing on the reversed
list is the same recursion).  `proj_ltys` is the full chain of labeled types: the
local's type followed by the type after each projection. -/
def visit_place_ref (ctx : Ctx) (revProj : List PlaceElem) (proj_ltys : List LTy)
    (access : PlaceAccess) (s : VState) : Except String VState :=
  match revProj with
  | [] => pure s
  | last_proj :: restRev =>
    -- The place has projection `restRev.reverse ++ [last_proj]`; `base_lty` is the
    -- type before the last projection, i.e. `proj_ltys[restRev.length]`.
    let base_lty := proj_ltys.getD restRev.length default
    match last_proj with
    | .deref =>
      enter .PlaceDerefPointer (fun s => do
        let s ← visit_place_ref ctx restRev proj_ltys access s
        let s :=
          if is_nullable ctx base_lty.label then
            -- If the pointer type is non-copy, downgrade (borrow) before `unwrap()`.
            let desc := ctx.perms_to_desc base_lty.ty (ctx.perms base_lty.label)
              (ctx.flags base_lty.label)
            let s :=
              if !desc.own.is_copy then
                s.emit (.OptionDowngrade (access == PlaceAccess.Mut) true)
              else s
            s.emit .OptionUnwrap
          else s
        let s :=
          if is_dyn_owned ctx base_lty then
            s.emit (.DynOwnedDowngrade (access == PlaceAccess.Mut))
          else s
        pure s) s
    | .field _ => enter .PlaceFieldBase (visit_place_ref ctx restRev proj_ltys access) s
    | .index | .constantIndex | .subslice =>
      enter .PlaceIndexArray (visit_place_ref ctx restRev proj_ltys access) s
    | .downcast => pure s

/-- `ExprRewriteVisitor::visit_place`: build the per-projection type chain, then walk
the projections outside-in. -/
def visit_place (ctx : Ctx) (pl : Place) (access : PlaceAccess) (s : VState) :
    Except String VState :=
  let proj_ltys := pl.projection.foldl
    (fun acc proj => acc ++ [ctx.projection_lty (acc.getLastD default) proj])
    [ctx.local_tys pl.local_]
  visit_place_ref ctx pl.projection.reverse proj_ltys access s

/-- `ExprRewriteVisitor::visit_operand`. -/
def visit_operand (ctx : Ctx) (op : Operand) (expect_ty : Option LTy) (s : VState) :
    Except String VState :=
  match op with
  | .copy pl | .move pl => do
    let s ← enter .OperandPlace (visit_place ctx pl .Move) s
    match expect_ty with
    | some expect_ty =>
      let ptr_lty := ctx.type_of_place pl
      if ptr_lty.label.isSome then emit_cast_lty_lty ctx ptr_lty expect_ty s
      else pure s
    | none => pure s
  | .constant _ => pure s

/-- `ExprRewriteVisitor::visit_operand_desc` (no `enter_operand_place` here, exactly
as in the source). -/
def visit_operand_desc (ctx : Ctx) (op : Operand) (expect_desc : TypeDesc) (s : VState) :
    Except String VState :=
  match op with
  | .copy pl | .move pl => do
    let s ← visit_place ctx pl .Move s
    let ptr_lty := ctx.type_of_place pl
    if ptr_lty.label.isSome then emit_cast_lty_desc ctx ptr_lty expect_desc s
    else pure s
  | .constant _ => pure s

/-- The `Rvalue::Aggregate` loop: visit each operand under its index. -/
def visit_rvalue_operands (ctx : Ctx) (i : Nat) (ops : List Operand) (s : VState) :
    Except String VState :=
  match ops with
  | [] => pure s
  | op :: rest => do
    let s ← enter (.RvalueOperand i) (visit_operand ctx op none) s
    visit_rvalue_operands ctx (i + 1) rest s

/-- `ExprRewriteVisitor::visit_rvalue`. -/
def visit_rvalue (ctx : Ctx) (rv : Rvalue) (expect_ty : Option LTy) (s : VState) :
    Except String VState :=
  match rv with
  | .use op => enter (.RvalueOperand 0) (visit_operand ctx op expect_ty) s
  | .repeat' op => enter (.RvalueOperand 0) (visit_operand ctx op none) s
  | .ref kind pl => do
    let mutbl :=
      match kind with
      | .mut' => true
      | .shared | .shallow | .unique => false
    let s ← enter (.RvaluePlace 0) (visit_place ctx pl (PlaceAccess.from_bool mutbl)) s
    match expect_ty with
    | some expect_ty =>
      -- `Ref` always produces a NON_NULL pointer; wrap if a nullable output is
      -- expected.
      if is_nullable ctx expect_ty.label then pure (s.emit .OptionSome) else pure s
    | none => pure s
  | .threadLocalRef => pure s
  | .addressOf mutbl pl => do
    let s ← enter (.RvaluePlace 0) (visit_place ctx pl (PlaceAccess.from_mutbl mutbl)) s
    match expect_ty with
    | some expect_ty =>
      let desc := ctx.perms_to_desc_with_pointee (ctx.type_of_place pl).ty expect_ty.ty
        (ctx.perms expect_ty.label) (ctx.flags expect_ty.label)
      let s :=
        match desc.own with
        | .Cell => s.emit (.RawToRef false)
        | .Imm | .Mut => s.emit (.RawToRef mutbl)
        | _ => s
      let s := if desc.option then s.emit .OptionSome else s
      pure s
    | none => pure s
  | .len pl => enter (.RvaluePlace 0) (visit_place ctx pl .Imm) s
  | .cast op castTy => do
    let s :=
      if is_null_const_operand op && castTy.is_raw_ptr then
        -- Special case: convert `0 as *const T` to `None`.
        match expect_ty with
        | some rv_lty => if is_nullable ctx rv_lty.label then s.emit .ZeroAsPtrToNone else s
        | none => s
      else s
    let s ← enter (.RvalueOperand 0) (visit_operand ctx op none) s
    match expect_ty with
    | some rv_lty =>
      let op_lty := type_of_operand ctx op
      let op_pointee := pointee_lty ctx op_lty
      let rv_pointee := pointee_lty ctx rv_lty
      match op_pointee, rv_pointee with
      | some x, some y =>
        if x = y then
          let op_desc := ctx.perms_to_desc_with_pointee x.ty op_lty.ty
            (ctx.perms op_lty.label) (ctx.flags op_lty.label)
          let rv_desc := ctx.perms_to_desc_with_pointee x.ty rv_lty.ty
            (ctx.perms rv_lty.label) (ctx.flags rv_lty.label)
          -- Identical rewritten input/output types: delete the cast.
          if op_desc = rv_desc then pure (s.emit .RemoveCast) else pure s
        else pure s
      | _, _ => pure s
    | none => pure s
  | .binaryOp op1 op2 => do
    let s ← enter (.RvalueOperand 0) (visit_operand ctx op1 none) s
    enter (.RvalueOperand 1) (visit_operand ctx op2 none) s
  | .checkedBinaryOp op1 op2 => do
    let s ← enter (.RvalueOperand 0) (visit_operand ctx op1 none) s
    enter (.RvalueOperand 1) (visit_operand ctx op2 none) s
  | .nullaryOp => pure s
  | .unaryOp op => enter (.RvalueOperand 0) (visit_operand ctx op none) s
  | .discriminant pl => enter (.RvaluePlace 0) (visit_place ctx pl .Imm) s
  | .aggregate ops => visit_rvalue_operands ctx 0 ops s
  | .shallowInitBox op => enter (.RvalueOperand 0) (visit_operand ctx op none) s
  | .copyForDeref pl => enter (.RvaluePlace 0) (visit_place ctx pl .Imm) s

/-- The CELL-destination stage of the assign arm of `visit_statement`: an assignment
like `*x = 2` where `x` has CELL permissions emits `CellSet` (recording the
complex-cell suppression reason first when the access is complex). -/
def vs_cell_set (ctx : Ctx) (pl : Place) (s : VState) : VState :=
  if pl.is_indirect && (ctx.local_tys pl.local_).ty.is_any_ptr then
    let local_lty := ctx.local_tys pl.local_
    let local_ptr := local_lty.label
    let perms := ctx.perms local_ptr
    let flags := ctx.flags local_ptr
    if !flags.FIXED then
      let desc := ctx.perms_to_desc local_lty.ty perms flags
      if desc.own = Ownership.Cell then
        let s :=
          if pl.projection.length > 1 || desc.qty != Quantity.Single then
            -- NYI: `Cell` inside structs, arrays, or ptr-to-ptr
            s.err DontRewriteFnReason.COMPLEX_CELL
          else s
        s.emit RewriteKind.CellSet
      else s
    else s
  else s

/-- The `Rvalue::Use` special cases of the assign arm of `visit_statement`: CELL
locals (`CellNew`) and reads through a CELL pointer (`CellGet`). -/
def vs_cell_new_get (ctx : Ctx) (pl : Place) (rv : Rvalue) (s : VState) :
    Except String VState :=
  match rv with
  | .use rv_op => do
    let local_ty := (ctx.local_tys pl.local_).ty
    let local_addr := ctx.addr_of_local pl.local_
    let perms := ctx.perms local_addr
    let flags := ctx.flags local_addr
    let desc := ctx.local_perms_to_desc local_ty perms flags
    let s ←
      if desc.own = Ownership.Cell then do
        -- An assignment like `let x = 2` where `x` has CELL permissions.
        let s :=
          if !pl.projection.isEmpty || desc.qty != Quantity.Single then
            s.err DontRewriteFnReason.COMPLEX_CELL
          else s
        enter .Rvalue (fun s => pure (s.emit RewriteKind.CellNew)) s
      else pure s
    match rv_op.place with
    | some rv_place =>
      if rv_place.is_indirect && (ctx.local_tys rv_place.local_).ty.is_any_ptr then
        let local_lty := ctx.local_tys rv_place.local_
        let local_ptr := local_lty.label
        let flags2 := ctx.flags local_ptr
        if !flags2.FIXED && flags2.CELL then
          -- An assignment like `let x = *y` where `y` has CELL permissions.
          let s :=
            if pl.projection.length > 1 || desc.qty != Quantity.Single then
              s.err DontRewriteFnReason.COMPLEX_CELL
            else s
          enter .Rvalue (fun s => pure (s.emit RewriteKind.CellGet)) s
        else pure s
      else pure s
    | none => pure s
  | _ => pure s

/-- The right-hand-side stage of the assign arm of `visit_statement`: the body run
under the `Rvalue` sub-location, covering the DynOwned-to-DynOwned transfer special
case and the normal `visit_rvalue`-then-cast path. -/
def vs_rhs (ctx : Ctx) (pl : Place) (rv : Rvalue) (rv_lty pl_lty : LTy) (s : VState) :
    Except String VState := do
  -- When reading from a `DynOwned` place into another `DynOwned` place, visit
  -- the RHS mutably and `mem::take` out of it.
  let transfers : Option Place :=
    if !is_dyn_owned ctx (ctx.type_of_place pl) then none
    else
      match rv with
      | .use op =>
        match op.place with
        | some rv_pl =>
          if is_dyn_owned ctx (ctx.type_of_place rv_pl) then some rv_pl else none
        | none => none
      | _ => none
  match transfers with
  | some rv_pl => do
    let s ← enter (.RvalueOperand 0)
      (enter .OperandPlace (visit_place ctx rv_pl .Mut)) s
    let s := s.emit RewriteKind.DynOwnedTake
    emit_cast_lty_lty ctx rv_lty pl_lty s
  | none => do
    -- Normal case: `visit_rvalue` and emit a cast if needed.
    let s ← visit_rvalue ctx rv (some rv_lty) s
    emit_cast_lty_lty ctx rv_lty pl_lty s

/-- `ExprRewriteVisitor::visit_statement`. -/
def visit_statement (ctx : Ctx) (stmt : StatementKind) (loc : Location) (s : VState) :
    Except String VState :=
  let s := { s with loc := loc }
  -- debug_assert!(self.sub_loc.is_empty()) -- established as an invariant below.
  match stmt with
  | .assign pl rv => do
    let pl_lty := ctx.type_of_place pl
    -- CELL destination: an assignment like `*x = 2` where `x` has CELL permissions.
    let s := vs_cell_set ctx pl s
    -- The `Rvalue::Use` special cases: CELL locals (`CellNew`) and reads through a
    -- CELL pointer (`CellGet`).
    let s ← vs_cell_new_get ctx pl rv s
    let rv_lty := ctx.type_of_rvalue rv loc
    -- The cast from `rv_lty` to `pl_lty` is applied to the RHS.
    let s ← enter .Rvalue (vs_rhs ctx pl rv rv_lty pl_lty) s
    enter .Dest (visit_place ctx pl .Mut) s
  | .fakeRead | .deinit | .storageLive | .storageDead | .retag
  | .ascribeUserType | .coverage | .nop => pure s
  | .setDiscriminant => throw "todo: statement SetDiscriminant"
  | .copyNonOverlapping => throw "todo: statement CopyNonOverlapping"

/-- `ExprRewriteVisitor::visit_ptr_offset`. -/
def visit_ptr_offset (ctx : Ctx) (op : Operand) (result_ty : LTy) (s : VState) :
    Except String VState := do
  let result_ptr := result_ty.label
  let result_desc := ctx.perms_to_desc result_ty.ty (ctx.perms result_ptr)
    (ctx.flags result_ptr)
  let arg_expect_qty ←
    match result_desc.qty with
    | .Single => pure Quantity.Slice
    | .Slice => pure Quantity.Slice
    | .OffsetPtr => pure Quantity.OffsetPtr
    | .Array => throw "unreachable: perms_to_desc should not return Quantity Array"
  let arg_expect_desc : TypeDesc :=
    { own := result_desc.own, qty := arg_expect_qty, dyn_owned := result_desc.dyn_owned,
      option := result_desc.option, pointee_ty := result_desc.pointee_ty }
  enter .Rvalue (fun s => do
    let s ← enter (.CallArg 0) (visit_operand_desc ctx op arg_expect_desc) s
    -- Emit `OffsetSlice` (or its nullable-mapped variant) for the offset itself.
    let mutbl := result_desc.own == Ownership.Mut
    let s :=
      if !result_desc.option then s.emit (.OffsetSlice mutbl)
      else s.emit (.OptionMapOffsetSlice mutbl)
    -- `OffsetSlice` returns the same type as its input; cast to the result shape.
    emit_cast_desc_desc ctx arg_expect_desc result_desc s) s

/-- `ExprRewriteVisitor::visit_slice_as_ptr`. -/
def visit_slice_as_ptr (ctx : Ctx) (elem_ty : RTy) (op : Operand) (result_lty : LTy)
    (s : VState) : Except String VState := do
  let op_lty := type_of_operand ctx op
  let op_ptr := op_lty.label
  let result_ptr := result_lty.label
  let op_desc := ctx.perms_to_desc_with_pointee elem_ty op_lty.ty (ctx.perms op_ptr)
    (ctx.flags op_ptr)
  let result_desc := ctx.perms_to_desc_with_pointee elem_ty result_lty.ty
    (ctx.perms result_ptr) (ctx.flags result_ptr)
  enter .Rvalue (fun s => do
    -- Remove the `as_ptr` call and generate a cast of our own.
    let s := s.emit .RemoveAsPtr
    emit_cast_desc_desc ctx op_desc result_desc s) s

/-- The argument loop of the `Callee::LocalDef` case: arguments with a declared input
type are visited under it; the variadic tail passes through unchanged. -/
def visit_call_args (ctx : Ctx) (lsig : LFnSig) (i : Nat) (args : List Operand)
    (s : VState) : Except String VState :=
  match args with
  | [] => pure s
  | op :: rest => do
    let s ←
      match lsig.inputs.get? i with
      | some lty => enter (.CallArg i) (visit_operand ctx op (some lty)) s
      | none => pure s
    visit_call_args ctx lsig (i + 1) rest s

/-- The `Callee::LocalDef` case of `visit_terminator`: call to an analyzed function. -/
def visit_call_local_def (ctx : Ctx) (def_id : Nat) (args : List Operand) (pl_ty : LTy)
    (s : VState) : Except String VState :=
  match ctx.fn_sig def_id with
  | some lsig =>
    enter .Rvalue (fun s => do
      let s ← visit_call_args ctx lsig 0 args s
      if pl_ty.label.isSome then emit_cast_lty_lty ctx lsig.output pl_ty s
      else pure s) s
  | none => pure s

/-- The `Callee::Memcpy` case of `visit_terminator`. -/
def visit_call_memcpy (ctx : Ctx) (args : List Operand) (pl_ty : LTy) (s : VState) :
    Except String VState :=
  enter .Rvalue (fun s => do
    let dest_lty := type_of_operand ctx (args.getD 0 default)
    let dest_pointee := pointee_lty ctx dest_lty
    let src_lty := type_of_operand ctx (args.getD 1 default)
    let src_pointee := pointee_lty ctx src_lty
    let common_pointee := dest_pointee.filter (fun x => some x == src_pointee)
    match common_pointee with
    | none =>
      -- No common pointee type: bail out, leaving the call intact.
      pure s
    | some pointee_lty_ =>
      let orig_pointee_ty := pointee_lty_.ty
      let elem_size := ctx.layout_size orig_pointee_ty
      let dest_single :=
        !((ctx.perms dest_lty.label).OFFSET_ADD || (ctx.perms dest_lty.label).OFFSET_SUB)
      let src_single :=
        !((ctx.perms src_lty.label).OFFSET_ADD || (ctx.perms src_lty.label).OFFSET_SUB)
      let s := s.emit (.MemcpySafe elem_size dest_single src_single)
      if pl_ty.label.isSome && (ctx.perms pl_ty.label).USED then
        let dest_lty := type_of_operand ctx (args.getD 0 default)
        emit_cast_lty_lty ctx dest_lty pl_ty s
      else pure s) s

/-- The `Callee::Memset` case of `visit_terminator`. -/
def visit_call_memset (ctx : Ctx) (args : List Operand) (pl_ty : LTy) (s : VState) :
    Except String VState :=
  enter .Rvalue (fun s => do
    let dest_lty := type_of_operand ctx (args.getD 0 default)
    match pointee_lty ctx dest_lty with
    | none => pure s
    | some pointee_lty_ =>
      let orig_pointee_ty := pointee_lty_.ty
      let elem_size := ctx.layout_size orig_pointee_ty
      let dest_single :=
        !((ctx.perms dest_lty.label).OFFSET_ADD || (ctx.perms dest_lty.label).OFFSET_SUB)
      match ZeroizeType.from_ty orig_pointee_ty with
      | none =>
        -- No zero-fill plan for the pointee: bail out, leaving the call intact.
        pure s
      | some zero_ty =>
        let s := s.emit (.MemsetZeroize zero_ty elem_size dest_single)
        if pl_ty.label.isSome && (ctx.perms pl_ty.label).USED then
          let dest_lty := type_of_operand ctx (args.getD 0 default)
          emit_cast_lty_lty ctx dest_lty pl_ty s
        else pure s) s

/-- The `Callee::IsNull` case of `visit_terminator`. -/
def visit_call_is_null (ctx : Ctx) (args : List Operand) (s : VState) :
    Except String VState :=
  enter .Rvalue (fun s => do
    let arg_lty := type_of_operand ctx (args.getD 0 default)
    if !(ctx.flags arg_lty.label).FIXED then
      let arg_non_null := (ctx.perms arg_lty.label).NON_NULL
      if arg_non_null then pure (s.emit .IsNullToConstFalse)
      else pure (s.emit .IsNullToIsNone)
    else pure s) s

/-- The `Callee::Null` case of `visit_terminator`.  The source asserts that the result
is not NON_NULL; the assertion failure is a panic. -/
def visit_call_null (ctx : Ctx) (pl_ty : LTy) (s : VState) : Except String VState :=
  enter .Rvalue (fun s => do
    if !(ctx.flags pl_ty.label).FIXED then
      if (ctx.perms pl_ty.label).NON_NULL then
        throw "impossible: result of null() is a NON_NULL pointer"
      else pure (s.emit .PtrNullToNone)
    else pure s) s

/-- The `Callee::Malloc`/`Callee::Calloc` cases of `visit_terminator`. -/
def visit_call_malloc_calloc (ctx : Ctx) (isCalloc : Bool) (destination : Place)
    (s : VState) : Except String VState :=
  enter .Rvalue (fun s => do
    let dest_lty := ctx.type_of_place destination
    match pointee_lty ctx dest_lty with
    | none => pure s
    | some pointee_lty_ =>
      let orig_pointee_ty := pointee_lty_.ty
      let elem_size := ctx.layout_size orig_pointee_ty
      let single :=
        !((ctx.perms dest_lty.label).OFFSET_ADD || (ctx.perms dest_lty.label).OFFSET_SUB)
      match ZeroizeType.from_ty orig_pointee_ty with
      | none => pure s
      | some zero_ty =>
        let s := s.emit
          (if isCalloc then .CallocSafe zero_ty elem_size single
           else .MallocSafe zero_ty elem_size single)
        -- `MallocSafe` produces `Box` of a single or slice; cast to the output type.
        emit_cast_adjust_lty ctx
          (fun desc =>
            { own := Ownership.Box,
              qty := if single then Quantity.Single else Quantity.Slice,
              dyn_owned := false, option := false, pointee_ty := desc.pointee_ty })
          dest_lty s) s

/-- The `Callee::Free` case of `visit_terminator`. -/
def visit_call_free (ctx : Ctx) (args : List Operand) (s : VState) :
    Except String VState :=
  enter .Rvalue (fun s => do
    let src_lty := type_of_operand ctx (args.getD 0 default)
    match pointee_lty ctx src_lty with
    | none => pure s
    | some _ =>
      let single :=
        !((ctx.perms src_lty.label).OFFSET_ADD || (ctx.perms src_lty.label).OFFSET_SUB)
      -- Cast to an owning `Box` shape first, so freeing a non-owning pointer is a
      -- detectable mismatch.
      let s ← enter (.CallArg 0) (fun s =>
        emit_cast_lty_adjust ctx src_lty (fun desc =>
          { own := Ownership.Box,
            qty := if single then Quantity.Single else Quantity.Slice,
            dyn_owned := false, option := desc.option, pointee_ty := desc.pointee_ty }) s) s
      pure (s.emit (.FreeSafe single))) s

/-- The `Callee::Realloc` case of `visit_terminator`. -/
def visit_call_realloc (ctx : Ctx) (args : List Operand) (destination : Place)
    (s : VState) : Except String VState :=
  enter .Rvalue (fun s => do
    let src_lty := type_of_operand ctx (args.getD 0 default)
    let src_pointee := pointee_lty ctx src_lty
    let dest_lty := ctx.type_of_place destination
    let dest_pointee := pointee_lty ctx dest_lty
    let common_pointee := dest_pointee.filter (fun x => some x == src_pointee)
    match common_pointee with
    | none => pure s
    | some pointee_lty_ =>
      let orig_pointee_ty := pointee_lty_.ty
      let elem_size := ctx.layout_size orig_pointee_ty
      let dest_single :=
        !((ctx.perms dest_lty.label).OFFSET_ADD || (ctx.perms dest_lty.label).OFFSET_SUB)
      let src_single :=
        !((ctx.perms src_lty.label).OFFSET_ADD || (ctx.perms src_lty.label).OFFSET_SUB)
      match ZeroizeType.from_ty orig_pointee_ty with
      | none => pure s
      | some zero_ty =>
        -- Release-style input cast to `Box`, as in `free`.
        let s ← enter (.CallArg 0) (fun s =>
          emit_cast_lty_adjust ctx src_lty (fun desc =>
            { own := Ownership.Box,
              qty := if src_single then Quantity.Single else Quantity.Slice,
              dyn_owned := false, option := desc.option,
              pointee_ty := desc.pointee_ty }) s) s
        let s := s.emit (.ReallocSafe zero_ty elem_size src_single dest_single)
        -- Allocate-style output cast from `Box`, as in `malloc`.
        emit_cast_adjust_lty ctx
          (fun desc =>
            { own := Ownership.Box,
              qty := if dest_single then Quantity.Single else Quantity.Slice,
              dyn_owned := false, option := false, pointee_ty := desc.pointee_ty })
          dest_lty s) s

/-- `ExprRewriteVisitor::visit_terminator`. -/
def visit_terminator (ctx : Ctx) (term : TerminatorKind) (loc : Location) (s : VState) :
    Except String VState :=
  let s := { s with loc := loc }
  -- debug_assert!(self.sub_loc.is_empty()) -- established as an invariant below.
  match term with
  | .goto | .switchInt | .resume | .abort | .ret | .unreachable | .drop
  | .dropAndReplace | .assert | .yield | .generatorDrop | .falseEdge
  | .falseUnwind => pure s
  | .inlineAsm => throw "todo: terminator InlineAsm"
  | .call callee args destination =>
    let pl_ty := ctx.type_of_place destination
    match callee with
    | .ptrOffset => visit_ptr_offset ctx (args.getD 0 default) pl_ty s
    | .sliceAsPtr elem_ty => visit_slice_as_ptr ctx elem_ty (args.getD 0 default) pl_ty s
    | .localDef def_id => visit_call_local_def ctx def_id args pl_ty s
    | .memcpy => visit_call_memcpy ctx args pl_ty s
    | .memset => visit_call_memset ctx args pl_ty s
    | .isNull => visit_call_is_null ctx args s
    | .null => visit_call_null ctx pl_ty s
    | .malloc => visit_call_malloc_calloc ctx false destination s
    | .calloc => visit_call_malloc_calloc ctx true destination s
    | .free => visit_call_free ctx args s
    | .realloc => visit_call_realloc ctx args destination s
    | .otherCallee => pure s

/-- One basic block: a statement list and an optional terminator. -/
structure BasicBlockData where
  statements : List StatementKind
  terminator : Option TerminatorKind
deriving DecidableEq, Repr

/-- The statement loop of `gen_mir_rewrites` within one block. -/
def visit_block_statements (ctx : Ctx) (bb : Nat) (i : Nat) (stmts : List StatementKind)
    (s : VState) : Except String VState :=
  match stmts with
  | [] => pure s
  | stmt :: rest => do
    let s ← visit_statement ctx stmt ⟨bb, i⟩ s
    visit_block_statements ctx bb (i + 1) rest s

/-- The block loop of `gen_mir_rewrites`. -/
def visit_blocks (ctx : Ctx) (bb : Nat) (blocks : List BasicBlockData) (s : VState) :
    Except String VState :=
  match blocks with
  | [] => pure s
  | blk :: rest => do
    let s ← visit_block_statements ctx bb 0 blk.statements s
    let s ←
      match blk.terminator with
      | some term => visit_terminator ctx term ⟨bb, blk.statements.length⟩ s
      | none => pure s
    visit_blocks ctx (bb + 1) rest s

/-- `gen_mir_rewrites`: walk every statement and terminator of every block, returning
the rewrite map (as a flat ordered list) and the suppression reasons. -/
def gen_mir_rewrites (ctx : Ctx) (blocks : List BasicBlockData) :
    Except String (List (Location × MirRewrite) × DontRewriteFnReason) := do
  let init : VState := ⟨⟨0, 0⟩, [], [], DontRewriteFnReason.empty⟩
  let s ← visit_blocks ctx 0 blocks init
  pure (s.rewrites, s.errors)
/-! Auxiliary definitions used by the verification below: structural predicates on
types and rewrite kinds, the absent-input simulator for mapped-mode sequences, a
well-formedness predicate for visitor computations, and concrete walk scenarios. -/

mutual
/-- A type contains a pointer or reference, at any depth reachable through struct
fields and array elements. -/
def RTy.contains_ptr : RTy → Bool
  | .adt _ _ fields => RFields.contains_ptr fields
  | .array e => RTy.contains_ptr e
  | .ref .. => true
  | .rawPtr .. => true
  | .int | .uint | .bool | .other _ => false

/-- Pointer-containment over a field list. -/
def RFields.contains_ptr : RFields → Bool
  | .nil => false
  | .cons _ t rest => RTy.contains_ptr t || RFields.contains_ptr rest
end

mutual
/-- A type built entirely from zeroable primitives, arrays, and struct fields. -/
def RTy.zeroable : RTy → Bool
  | .int | .uint | .bool => true
  | .adt isStruct _ fields => isStruct && RFields.zeroable fields
  | .array e => RTy.zeroable e
  | .ref .. | .rawPtr .. | .other _ => false

/-- Zeroability of every field in a list. -/
def RFields.zeroable : RFields → Bool
  | .nil => true
  | .cons _ t rest => RTy.zeroable t && RFields.zeroable rest
end

/-- Field names of a struct type, in declaration order. -/
def RFields.names : RFields → List String
  | .nil => []
  | .cons n _ rest => n :: RFields.names rest

/-- Field names of a zero-fill plan, in order. -/
def ZFields.names : ZFields → List String
  | .nil => []
  | .cons n _ rest => n :: ZFields.names rest

/-- The two `Option::map` markers. -/
def RewriteKind.is_map_marker : RewriteKind → Bool
  | .OptionMapBegin | .OptionMapEnd => true
  | _ => false

/-- Rewrite kinds emitted by the ownership-step phase of the cast synthesizer. -/
def RewriteKind.is_own_step_op : RewriteKind → Bool
  | .Reborrow _ | .CellFromMut | .CastRefToRaw _ | .AsPtr | .CastRawToRaw _
  | .UnsafeCastRawToRef _ | .CastRawMutToCellPtr _ => true
  | _ => false

/-- The three `Cell` access rewrites emitted only by the statement visitor's special
cases. -/
def RewriteKind.is_cell_op : RewriteKind → Bool
  | .CellSet | .CellGet | .CellNew => true
  | _ => false

/-- Every rewrite kind the cast synthesizer can emit. -/
def RewriteKind.is_cast_op (op : RewriteKind) : Bool :=
  op.is_own_step_op || op.is_map_marker ||
    match op with
    | .OptionDowngrade _ _ | .OptionUnwrap | .OptionSome
    | .DynOwnedDowngrade _ | .DynOwnedUnwrap | .DynOwnedWrap
    | .SliceFirst _ => true
    | _ => false

/-- State of the absent-input (`None`) simulation of an emitted rewrite sequence:
whether the tracked value is still absent, whether we are inside an
`OptionMapBegin`/`OptionMapEnd` pair, the inner operations actually executed, and
whether an operation faulted (was applied to an absent value it cannot handle). -/
structure OptSim where
  absent : Bool
  inMap : Bool
  executed : List RewriteKind
  fault : Bool
deriving DecidableEq, Repr

/-- One step of the absent-input simulation, following the documented semantics of
each operation: the paired map markers enter/leave an `Option::map` whose closure is
skipped entirely on an absent input; `OptionDowngrade` (`as_ref`/`as_deref`) maps an
absent value to an absent value; `OptionUnwrap` faults on an absent value;
`OptionSome` wraps (so the value is present afterwards); every other operation
operates on the unwrapped value itself, so reaching one while absent is a fault. -/
def opt_sim_step (s : OptSim) (op : RewriteKind) : OptSim :=
  match op with
  | .OptionMapBegin => { s with inMap := true }
  | .OptionMapEnd => { s with inMap := false }
  | _ =>
    if s.inMap then
      if s.absent then s
      else { s with executed := s.executed ++ [op] }
    else
      match op with
      | .OptionDowngrade _ _ => s
      | .OptionUnwrap => if s.absent then { s with fault := true } else s
      | .OptionSome => { s with absent := false }
      | _ =>
        if s.absent then { s with fault := true }
        else { s with executed := s.executed ++ [op] }

/-- Run the absent-input simulation over a whole sequence. -/
def opt_sim (ops : List RewriteKind) (s : OptSim) : OptSim :=
  ops.foldl opt_sim_step s

/-- Relation between the state at the start of a visitor computation and the state
it produces: the sub-location path and location are restored, rewrites are only
appended and their kinds satisfy `P`, and the suppression reasons are untouched. -/
def StepOk (P : RewriteKind → Prop) (s s' : VState) : Prop :=
  s'.sub_loc = s.sub_loc ∧ s'.loc = s.loc ∧
  (∃ new, s'.rewrites = s.rewrites ++ new ∧ ∀ pr ∈ new, P pr.2.kind) ∧
  s'.errors = s.errors

/-- A visitor computation is tame (for a predicate `P` on emitted kinds) when every
successful run restores the sub-location path, keeps the location, only appends
rewrites whose kinds satisfy `P`, and leaves the suppression reasons untouched. -/
def Tame (P : RewriteKind → Prop) (f : VState → Except String VState) : Prop :=
  ∀ s s', f s = .ok s' → StepOk P s s'

/-- Number of rewrites of a given kind in an accumulated rewrite list. -/
def count_kind (k : RewriteKind) (rs : List (Location × MirRewrite)) : Nat :=
  rs.countP (fun pr => pr.2.kind == k)

/-! Concrete walk scenarios used as counterexamples and witnesses. -/

/-- The labeled type of a plain `i32` value. -/
def intLty : LTy := .mk .int none .nil

/-- The labeled type of a `*mut i32`-like pointer with label 0. -/
def ptrLty : LTy := .mk (.rawPtr false .int) (some 0) (.cons intLty .nil)

/-- A context in which every pointer is classified as a shared-mutable-cell slice
(`Cell`/`Slice`), nothing is exempt, and all pointers are non-nullable. -/
def cellCtx : Ctx where
  local_tys := fun _ => ptrLty
  addr_of_local := fun _ => none
  perms := fun _ => { NON_NULL := true }
  flags := fun _ => {}
  pointee_sole_lty := fun _ => none
  type_of_place := fun pl => if pl.projection.isEmpty then ptrLty else intLty
  type_of_rvalue := fun _ _ => intLty
  projection_lty := fun _ _ => intLty
  fn_sig := fun _ => none
  perms_to_desc := fun _ _ _ => ⟨.Cell, .Slice, false, false, .int⟩
  local_perms_to_desc := fun _ _ _ => ⟨.Imm, .Single, false, false, .int⟩
  perms_to_desc_with_pointee := fun _ _ _ _ => ⟨.Box, .Slice, false, false, .int⟩
  layout_size := fun _ => 4
  print_ty := fun _ => "i32"

/-- The assignment `*x = 2`: an indirect store through local 0. -/
def cellStmt : StatementKind := .assign ⟨0, [.deref]⟩ (.use (.constant ⟨false, intLty⟩))

/-- The fresh visitor state at the start of a walk. -/
def vs0 : VState := ⟨⟨0, 0⟩, [], [], .empty⟩

/-- A context in which the `ptr.offset(i)` result pointer is classified as an owning
single (`Box`/`Single`), so that the re-slice output cast `Box`/`Slice` →
`Box`/`Single` cannot be synthesized. -/
def offsetCtx : Ctx where
  local_tys := fun _ => ptrLty
  addr_of_local := fun _ => none
  perms := fun _ => { NON_NULL := true }
  flags := fun _ => {}
  pointee_sole_lty := fun _ => none
  type_of_place := fun _ => ptrLty
  type_of_rvalue := fun _ _ => intLty
  projection_lty := fun _ _ => intLty
  fn_sig := fun _ => none
  perms_to_desc := fun _ _ _ => ⟨.Box, .Single, false, false, .int⟩
  local_perms_to_desc := fun _ _ _ => ⟨.Imm, .Single, false, false, .int⟩
  perms_to_desc_with_pointee := fun _ _ _ _ => ⟨.Box, .Slice, false, false, .int⟩
  layout_size := fun _ => 4
  print_ty := fun _ => "i32"

/-- The call terminator `_2 = offset(_1, _)`. -/
def offsetTerm : TerminatorKind := .call .ptrOffset [.copy ⟨1, []⟩] ⟨2, []⟩

/-- The labeled type of a `*mut u32`-like pointer (pointee differs from `ptrLty`). -/
def uintPtrLty : LTy := .mk (.rawPtr false .uint) (some 4) (.cons (.mk .uint none .nil) .nil)

/-- A context whose two memcpy arguments resolve to different pointee types. -/
def memcpyCtx : Ctx := { offsetCtx with
  type_of_place := fun pl => if pl.local_ = 1 then ptrLty else uintPtrLty }

/-- The call terminator `_2 = memcpy(_1, _9, _)` under `memcpyCtx`: the destination
pointee is `i32`, the source pointee `u32`. -/
def memcpyTerm : TerminatorKind := .call .memcpy [.copy ⟨1, []⟩, .copy ⟨9, []⟩] ⟨2, []⟩

/-- The labeled type of a pointer to a pointer (`*mut *mut i32`-like): its pointee
cannot be zero-filled. -/
def ptrPtrLty : LTy := .mk (.rawPtr false (.rawPtr false .int)) (some 5)
  (.cons (.mk (.rawPtr false .int) none .nil) .nil)

/-- A context whose memset destination's pointee is itself a pointer, so no zero-fill
plan exists. -/
def memsetCtx : Ctx := { offsetCtx with type_of_place := fun _ => ptrPtrLty }

/-- A cell context whose pointers additionally carry the `CELL` flag, so reads
through them take the `CellGet` path. -/
def cellGetCtx : Ctx := { cellCtx with flags := fun _ => { FIXED := false, CELL := true } }

/-- The assignment `*x = *y`: an indirect store whose value is an indirect read. -/
def cellGetStmt : StatementKind := .assign ⟨0, [.deref]⟩ (.use (.copy ⟨1, [.deref]⟩))

/-- The state produced by visiting `cellGetStmt` under `cellGetCtx` from a fresh
state: one `CellSet`, one `CellGet`, and the complex-cell suppression reason. -/
def c2res : VState :=
  ⟨⟨0, 0⟩, [], [(⟨0, 0⟩, ⟨.CellSet, []⟩), (⟨0, 0⟩, ⟨.CellGet, [.Rvalue]⟩)], ⟨true⟩⟩

/-- The call terminator `_2 = is_null(_1)`. -/
def isNullTerm : TerminatorKind := .call .isNull [.copy ⟨1, []⟩] ⟨2, []⟩

/-- The state produced by visiting `isNullTerm` under `cellCtx` from a fresh state. -/
def c9res : VState :=
  ⟨⟨0, 0⟩, [], [(⟨0, 0⟩, ⟨.IsNullToConstFalse, [.Rvalue]⟩)], ⟨false⟩⟩
/-! Theorems.  Each claim of the specification is settled by one theorem (plus, where
needed, a closed counterexample and a closed witness instantiating the theorem's
hypotheses). -/

/-- C5: for every pair of pointer shapes whose pointee types differ after lifetime
erasure, cast synthesis fails immediately with a descriptive error and emits zero
operations, regardless of the other axes. -/
theorem c5_pointee_gate (printTy : RTy → String) (from_ to_ : TypeDesc)
    (h : RTy.erase_regions from_.pointee_ty ≠ RTy.erase_regions to_.pointee_ty) :
    try_build_cast_desc_desc printTy from_ to_ = ([], .error "pointee type mismatch") := by
  unfold try_build_cast_desc_desc
  simp [h]

/-- Witness for C5 at a concrete input: `i32` vs `u32` pointees. -/
theorem c5_pointee_gate_witness :
    RTy.erase_regions (RTy.int) ≠ RTy.erase_regions (RTy.uint) ∧
    try_build_cast_desc_desc (fun _ => "") ⟨.Imm, .Single, false, false, .int⟩
      ⟨.Imm, .Single, false, false, .uint⟩ = ([], .error "pointee type mismatch") :=
  ⟨by decide,
   c5_pointee_gate (fun _ => "") ⟨.Imm, .Single, false, false, .int⟩
     ⟨.Imm, .Single, false, false, .uint⟩ (by decide)⟩

/-- C6: for every pointer shape X, synthesizing a cast from X to X (all four axes
equal and pointee types equal after lifetime erasure) succeeds and emits zero
operations. -/
theorem c6_identity (printTy : RTy → String) (from_ to_ : TypeDesc)
    (hown : from_.own = to_.own) (hqty : from_.qty = to_.qty)
    (hdyn : from_.dyn_owned = to_.dyn_owned) (hopt : from_.option = to_.option)
    (hp : RTy.erase_regions from_.pointee_ty = RTy.erase_regions to_.pointee_ty) :
    try_build_cast_desc_desc printTy from_ to_ = ([], .ok ()) := by
  have hfrom : ({ from_ with pointee_ty := to_.pointee_ty } : TypeDesc) = to_ := by
    cases from_; cases to_; simp_all
  unfold try_build_cast_desc_desc
  simp [hp, hfrom]

/-- Witness for C6 at a concrete input: the two pointee types differ only in a
lifetime, so they are equal after erasure and the cast is the zero-operation
identity. -/
theorem c6_identity_witness :
    try_build_cast_desc_desc (fun _ => "") ⟨.Mut, .Slice, false, true, .ref 1 true .int⟩
      ⟨.Mut, .Slice, false, true, .ref 2 true .int⟩ = ([], .ok ()) :=
  c6_identity (fun _ => "") ⟨.Mut, .Slice, false, true, .ref 1 true .int⟩
    ⟨.Mut, .Slice, false, true, .ref 2 true .int⟩ rfl rfl rfl rfl (by decide)

/-- Counterexample for C3: the claim says a fixed-array (`Array`) source converts to
bounded-run (`Slice`), but the code aborts every `Array` conversion as unimplemented,
including `Array` → `Slice` (the direct conversion is present but commented out). -/
theorem c3_counterexample :
    try_build_cast_desc_desc (fun _ => "")
      ⟨.Imm, .Array, false, false, .int⟩ ⟨.Imm, .Slice, false, false, .int⟩
      = ([], .error "TODO: cast Array to Slice") := rfl

/-- C3 (amended): in the multiplicity-resolution phase, an `Array` source aborts the
build as unimplemented for every differing target (including `Slice`); `Slice` and
`OffsetPtr` interconvert with zero emitted operations; either converts to `Single` by
exactly one take-first-element rewrite when the current ownership is `Imm`, `Cell`
(immutable form) or `Mut` (mutable form); under any other ownership — and for every
other multiplicity pair — the phase halts and the residual mismatch fails the whole
build.  Stated for shapes that differ only in multiplicity. -/
theorem c3_quantity_phase (printTy : RTy → String) (p : RTy) (own : Ownership)
    (q1 q2 : Quantity) :
    try_build_cast_desc_desc printTy ⟨own, q1, false, false, p⟩ ⟨own, q2, false, false, p⟩ =
      (if q1 = q2 then ([], Except.ok ())
       else
         match q1, q2 with
         | .Array, _ => ([], .error ("TODO: cast Array to " ++ q2.name))
         | .Slice, .OffsetPtr | .OffsetPtr, .Slice => ([], .ok ())
         | _, .Single =>
           match own with
           | .Imm | .Cell => ([.SliceFirst false], .ok ())
           | .Mut => ([.SliceFirst true], .ok ())
           | _ => ([], .error "unsupported cast kind")
         | _, _ => ([], .error "unsupported cast kind")) := by
  cases own <;> cases q1 <;> cases q2 <;>
    simp [try_build_cast_desc_desc, tb_downgrade_for_unwrap, tb_unwrap_nullable,
      tb_resolve_dyn_owned, cast_ownership, cast_ownership_go, cast_quantity,
      cast_quantity_go, Quantity.name]

/-- Counterexample for C4: the ownership pair immutable-borrow → raw-immutable is not
among the documented single-step transitions, yet the code performs it as one direct
late step (emitting a ref-to-raw cast and advancing to `Raw`), rather than failing or
using a phase-4-then-phase-6 chain. -/
theorem c4_counterexample :
    cast_ownership_one_step (fun _ => "") ⟨.Imm, .Single, false, false, .int⟩
      ⟨.Raw, .Single, false, false, .int⟩ false
      = ([.CastRefToRaw false], .ok (some .Raw)) := rfl

/-- C4 (amended): complete characterization of the one-step ownership transition
table.  The documented transitions behave as documented; in addition the code has
three undocumented direct late steps (`Mut`→`RawMut`, `Imm`→`Raw`, `Cell`→`RawMut`,
the latter also used en route to `Raw`), the `Box` and `Mut` "early" transitions also
fire in the late phase, `Box`→`Raw` routes through `Imm`, `Raw`→`Mut` routes through
`RawMut`, `Rc` downgrades fail as unimplemented, and every remaining pair makes no
direct step. -/
theorem c4_one_step_table (printTy : RTy → String) (from_ to_ : TypeDesc)
    (early : Bool) :
    cast_ownership_one_step printTy from_ to_ early =
      (match from_.own, to_.own with
      | .Box, .Raw | .Box, .Imm => ([.Reborrow false], .ok (some .Imm))
      | .Box, .RawMut | .Box, .Mut | .Box, .Cell => ([.Reborrow true], .ok (some .Mut))
      | .Rc, .Imm | .Rc, .Raw | .Rc, .RawMut => ([], .error "TODO: cast Rc to Imm")
      | .Mut, .Imm | .Mut, .Raw => ([.Reborrow false], .ok (some .Imm))
      | .Mut, .Cell => ([.CellFromMut], .ok (some .Cell))
      | .Mut, .RawMut =>
        if early then ([], .ok none) else ([.CastRefToRaw true], .ok (some .RawMut))
      | .Cell, .RawMut | .Cell, .Raw =>
        if early then ([], .ok none) else ([.AsPtr], .ok (some .RawMut))
      | .Imm, .Raw | .Imm, .RawMut =>
        if early then ([], .ok none) else ([.CastRefToRaw false], .ok (some .Raw))
      | .RawMut, .Raw | .RawMut, .Imm =>
        if early then ([], .ok none) else ([.CastRawToRaw false], .ok (some .Raw))
      | .RawMut, .Mut =>
        if early then ([], .ok none) else ([.UnsafeCastRawToRef true], .ok (some .Mut))
      | .RawMut, .Cell =>
        if early then ([], .ok none)
        else ([.CastRawMutToCellPtr (printTy to_.pointee_ty), .UnsafeCastRawToRef false],
          .ok (some .Cell))
      | .Raw, .RawMut | .Raw, .Mut =>
        if early then ([], .ok none) else ([.CastRawToRaw true], .ok (some .RawMut))
      | .Raw, .Imm =>
        if early then ([], .ok none) else ([.UnsafeCastRawToRef false], .ok (some .Imm))
      | _, _ => ([], .ok none)) := by
  obtain ⟨o1, q1, d1, n1, p1⟩ := from_
  obtain ⟨o2, q2, d2, n2, p2⟩ := to_
  cases o1 <;> cases o2 <;> cases early <;> rfl
mutual
/-- A type containing a pointer anywhere derives no zero-fill plan. -/
theorem RTy.contains_ptr_from_ty_none :
    ∀ t : RTy, t.contains_ptr = true → ZeroizeType.from_ty t = none
  | .int, h => by simp [RTy.contains_ptr] at h
  | .uint, h => by simp [RTy.contains_ptr] at h
  | .bool, h => by simp [RTy.contains_ptr] at h
  | .other i, h => by simp [RTy.contains_ptr] at h
  | .ref r m inner, _ => rfl
  | .rawPtr m inner, _ => rfl
  | .adt isStruct name fields, h => by
    have hf := RFields.contains_ptr_from_fields_none fields (by
      simpa [RTy.contains_ptr] using h)
    simp [ZeroizeType.from_ty, hf]
  | .array e, h => by
    have he := RTy.contains_ptr_from_ty_none e (by simpa [RTy.contains_ptr] using h)
    simp [ZeroizeType.from_ty, he]

/-- A field list containing a pointer anywhere derives no zero-fill plans. -/
theorem RFields.contains_ptr_from_fields_none :
    ∀ fs : RFields, fs.contains_ptr = true → ZeroizeType.from_fields fs = none
  | .nil, h => by simp [RFields.contains_ptr] at h
  | .cons n t rest, h => by
    have h' : RTy.contains_ptr t = true ∨ RFields.contains_ptr rest = true := by
      simpa [RFields.contains_ptr] using h
    rcases h' with ht | hr
    · have := RTy.contains_ptr_from_ty_none t ht
      simp [ZeroizeType.from_fields, this]
    · have := RFields.contains_ptr_from_fields_none rest hr
      cases hft : ZeroizeType.from_ty t <;> simp [ZeroizeType.from_fields, hft, this]
end

mutual
/-- A type built from zeroable primitives, arrays and struct fields always derives a
zero-fill plan. -/
theorem RTy.zeroable_from_ty_isSome :
    ∀ t : RTy, t.zeroable = true → (ZeroizeType.from_ty t).isSome = true
  | .int, _ => rfl
  | .uint, _ => rfl
  | .bool, _ => rfl
  | .other i, h => by simp [RTy.zeroable] at h
  | .ref r m inner, h => by simp [RTy.zeroable] at h
  | .rawPtr m inner, h => by simp [RTy.zeroable] at h
  | .adt isStruct name fields, h => by
    obtain ⟨hs, hf⟩ : isStruct = true ∧ RFields.zeroable fields = true := by
      simpa [RTy.zeroable] using h
    have := RFields.zeroable_from_fields_isSome fields hf
    cases hfs : ZeroizeType.from_fields fields
    · rw [hfs] at this; simp at this
    · simp [ZeroizeType.from_ty, hs, hfs]
  | .array e, h => by
    have := RTy.zeroable_from_ty_isSome e (by simpa [RTy.zeroable] using h)
    cases hfe : ZeroizeType.from_ty e
    · rw [hfe] at this; simp at this
    · simp [ZeroizeType.from_ty, hfe]

/-- Field lists of zeroable types always derive plans. -/
theorem RFields.zeroable_from_fields_isSome :
    ∀ fs : RFields, fs.zeroable = true → (ZeroizeType.from_fields fs).isSome = true
  | .nil, _ => rfl
  | .cons n t rest, h => by
    obtain ⟨ht, hr⟩ : RTy.zeroable t = true ∧ RFields.zeroable rest = true := by
      simpa [RFields.zeroable] using h
    have h1 := RTy.zeroable_from_ty_isSome t ht
    have h2 := RFields.zeroable_from_fields_isSome rest hr
    cases hft : ZeroizeType.from_ty t
    · rw [hft] at h1; simp at h1
    · cases hfr : ZeroizeType.from_fields rest
      · rw [hfr] at h2; simp at h2
      · simp [ZeroizeType.from_fields, hft, hfr]
end

/-- A successful field-wise derivation preserves the field names and their order. -/
theorem from_fields_names :
    ∀ (fs : RFields) (zfs : ZFields), ZeroizeType.from_fields fs = some zfs →
      zfs.names = fs.names
  | .nil, zfs, h => by
    simp [ZeroizeType.from_fields] at h
    subst h; rfl
  | .cons n t rest, zfs, h => by
    cases hft : ZeroizeType.from_ty t with
    | none => simp [ZeroizeType.from_fields, hft] at h
    | some z =>
      cases hfr : ZeroizeType.from_fields rest with
      | none => simp [ZeroizeType.from_fields, hft, hfr] at h
      | some zs =>
        have ih := from_fields_names rest zs hfr
        simp [ZeroizeType.from_fields, hft, hfr] at h
        subst h
        simp [ZFields.names, RFields.names, ih]

/-- C8: zero-fill plan derivation is pure structural recursion: a struct type all of
whose fields are recursively zeroable derives a plan listing every field by name in
declaration order, and any type containing a pointer or reference at any depth
derives no plan at all, the failure propagating through enclosing field and array
derivations. -/
theorem c8_zero_fill :
    (∀ (name : String) (fields : RFields), RFields.zeroable fields = true →
      ∃ zfs : ZFields,
        ZeroizeType.from_ty (.adt true name fields) = some (.struct name zfs) ∧
        zfs.names = fields.names) ∧
    (∀ t : RTy, t.contains_ptr = true → ZeroizeType.from_ty t = none) := by
  constructor
  · intro name fields hz
    have h := RFields.zeroable_from_fields_isSome fields hz
    cases hfs : ZeroizeType.from_fields fields with
    | none => rw [hfs] at h; simp at h
    | some zfs =>
      exact ⟨zfs, by simp [ZeroizeType.from_ty, hfs], from_fields_names fields zfs hfs⟩
  · exact RTy.contains_ptr_from_ty_none

/-- Witness for C8 at concrete inputs: a two-field primitive struct derives a plan
with its field names in order; a struct with one raw-pointer field (even nested
inside an array) derives no plan. -/
theorem c8_zero_fill_witness :
    (∃ zfs : ZFields,
        ZeroizeType.from_ty (.adt true "Point" (.cons "x" .int (.cons "y" .bool .nil)))
          = some (.struct "Point" zfs) ∧
        zfs.names = RFields.names (.cons "x" .int (.cons "y" .bool .nil))) ∧
    ZeroizeType.from_ty
      (.adt true "Node" (.cons "k" .int (.cons "next" (.array (.rawPtr true (.other 0))) .nil)))
      = none :=
  ⟨c8_zero_fill.1 "Point" (.cons "x" .int (.cons "y" .bool .nil)) (by decide),
   c8_zero_fill.2 _ (by decide)⟩
/-- Ownership-step operations are not map markers. -/
theorem own_step_not_marker (op : RewriteKind) (h : op.is_own_step_op = true) :
    op.is_map_marker = false := by
  cases op <;> simp_all [RewriteKind.is_own_step_op, RewriteKind.is_map_marker]

/-- Every rewrite emitted by a single ownership step is an ownership-step
operation. -/
theorem one_step_ops_own (printTy : RTy → String) (d1 d2 : TypeDesc) (e : Bool) :
    ∀ op ∈ (cast_ownership_one_step printTy d1 d2 e).1, op.is_own_step_op = true := by
  obtain ⟨o1, _, _, _, _⟩ := d1
  obtain ⟨o2, _, _, _, p2⟩ := d2
  cases o1 <;> cases o2 <;> cases e <;>
    simp [cast_ownership_one_step, RewriteKind.is_own_step_op]

/-- Every rewrite emitted by the ownership-cast loop is an ownership-step
operation. -/
theorem cast_ownership_go_ops_own (printTy : RTy → String) (d2 : TypeDesc) (e : Bool) :
    ∀ (fuel : Nat) (d1 : TypeDesc),
      ∀ op ∈ (cast_ownership_go printTy d1 d2 e fuel).1, op.is_own_step_op = true := by
  intro fuel
  induction fuel with
  | zero => intro d1 op hop; simp [cast_ownership_go] at hop
  | succ n ih =>
    intro d1 op hop
    unfold cast_ownership_go at hop
    by_cases h : d1.own = d2.own
    · simp [h] at hop
    · rw [if_neg h] at hop
      rcases hstep : cast_ownership_one_step printTy d1 d2 e with ⟨ops1, r⟩
      rw [hstep] at hop
      match r with
      | .error e' =>
        simp at hop
        exact one_step_ops_own printTy d1 d2 e op (by rw [hstep]; exact hop)
      | .ok none =>
        simp at hop
        exact one_step_ops_own printTy d1 d2 e op (by rw [hstep]; exact hop)
      | .ok (some newOwn) =>
        simp at hop
        rcases hop with h1 | h2
        · exact one_step_ops_own printTy d1 d2 e op (by rw [hstep]; exact h1)
        · exact ih { d1 with own := newOwn } op h2

/-- Every rewrite emitted by `cast_ownership` is an ownership-step operation. -/
theorem cast_ownership_ops_own (printTy : RTy → String) (d1 d2 : TypeDesc) (e : Bool) :
    ∀ op ∈ (cast_ownership printTy d1 d2 e).1, op.is_own_step_op = true :=
  cast_ownership_go_ops_own printTy d2 e 7 d1

/-- Every rewrite emitted by the multiplicity-resolution loop is a take-first-element
rewrite. -/
theorem cast_quantity_ops (own : Ownership) (q1 q2 : Quantity) :
    ∀ op ∈ (cast_quantity own q1 q2).1, ∃ m, op = RewriteKind.SliceFirst m := by
  cases own <;> cases q1 <;> cases q2 <;> decide

/-- Running a simulation over a concatenation runs the two halves in order. -/
theorem opt_sim_append (a b : List RewriteKind) (s : OptSim) :
    opt_sim (a ++ b) s = opt_sim b (opt_sim a s) :=
  List.foldl_append _ _ _ _

/-- An option-downgrade outside any map leaves the simulation state unchanged
(`as_ref`/`as_deref` map an absent value to an absent value without faulting). -/
theorem opt_sim_step_downgrade (s : OptSim) (m d : Bool) (h : s.inMap = false) :
    opt_sim_step s (.OptionDowngrade m d) = s := by
  simp [opt_sim_step, h]

/-- While inside a map with an absent value, any non-marker operation is skipped. -/
theorem opt_sim_step_inner_absent (s : OptSim) (op : RewriteKind)
    (h : op.is_map_marker = false) (habs : s.absent = true) (hin : s.inMap = true) :
    opt_sim_step s op = s := by
  cases op <;> simp_all [opt_sim_step, RewriteKind.is_map_marker]

/-- A prefix consisting only of option downgrades leaves the initial absent state
unchanged. -/
theorem opt_sim_pre (pre : List RewriteKind)
    (hpre : ∀ op ∈ pre, ∃ m d, op = RewriteKind.OptionDowngrade m d) :
    opt_sim pre ⟨true, false, [], false⟩ = ⟨true, false, [], false⟩ := by
  induction pre with
  | nil => rfl
  | cons op rest ih =>
    obtain ⟨m, d, rfl⟩ := hpre op (List.mem_cons_self _ _)
    show opt_sim rest (opt_sim_step ⟨true, false, [], false⟩ (.OptionDowngrade m d)) = _
    rw [opt_sim_step_downgrade _ _ _ rfl]
    exact ih (fun op h => hpre op (List.mem_cons_of_mem _ h))

/-- Marker-free inner operations are all skipped on an absent value inside a map. -/
theorem opt_sim_inner (inner : List RewriteKind)
    (hinner : ∀ op ∈ inner, op.is_map_marker = false) :
    opt_sim inner ⟨true, true, [], false⟩ = ⟨true, true, [], false⟩ := by
  induction inner with
  | nil => rfl
  | cons op rest ih =>
    show opt_sim rest (opt_sim_step ⟨true, true, [], false⟩ op) = _
    rw [opt_sim_step_inner_absent _ _ (hinner op (List.mem_cons_self _ _)) rfl rfl]
    exact ih (fun op h => hinner op (List.mem_cons_of_mem _ h))

/-- Simulating a full mapped-mode sequence on an absent input: the value stays
absent, nothing is executed, nothing faults. -/
theorem opt_sim_mapped (pre inner : List RewriteKind)
    (hpre : ∀ op ∈ pre, ∃ m d, op = RewriteKind.OptionDowngrade m d)
    (hinner : ∀ op ∈ inner, op.is_map_marker = false) :
    opt_sim (pre ++ [RewriteKind.OptionMapBegin] ++ inner ++ [RewriteKind.OptionMapEnd])
      ⟨true, false, [], false⟩ = ⟨true, false, [], false⟩ := by
  rw [opt_sim_append, opt_sim_append, opt_sim_append]
  rw [opt_sim_pre pre hpre]
  show opt_sim [RewriteKind.OptionMapEnd] (opt_sim inner (opt_sim_step _ .OptionMapBegin)) = _
  have hbegin : opt_sim_step ⟨true, false, [], false⟩ .OptionMapBegin = ⟨true, true, [], false⟩ := rfl
  rw [hbegin, opt_sim_inner inner hinner]
  rfl

/-- Downgrade-phase emissions are all option downgrades. -/
theorem tb_downgrade_ops (d1 d2 : TypeDesc) :
    ∀ op ∈ (tb_downgrade_for_unwrap d1 d2).1, ∃ m dr, op = RewriteKind.OptionDowngrade m dr := by
  unfold tb_downgrade_for_unwrap
  split
  · split <;> simp
  · simp

/-- The downgrade phase never changes the nullability axis. -/
theorem tb_downgrade_option (d1 d2 : TypeDesc) :
    ((tb_downgrade_for_unwrap d1 d2).2).option = d1.option := by
  unfold tb_downgrade_for_unwrap
  split
  · split <;> rfl
  · rfl

/-- When both sides are nullable, the nullability-resolution phase enters mapped
mode: it emits exactly the begin-map marker, unwraps the running shape, and raises
the `in_option_map` flag. -/
theorem tb_unwrap_mapped (d to_ : TypeDesc) (h1 : d.option = true) (h2 : to_.option = true) :
    tb_unwrap_nullable d to_ = ([RewriteKind.OptionMapBegin], { d with option := false }, true) := by
  unfold tb_unwrap_nullable
  rw [h1, h2]
  simp

/-- Dynamic-ownership-resolution emissions are never map markers. -/
theorem tb_dyn_ops (d to_ : TypeDesc) :
    ∀ op ∈ (tb_resolve_dyn_owned d to_).1, op.is_map_marker = false := by
  obtain ⟨o2, q2, y2, n2, p2⟩ := to_
  unfold tb_resolve_dyn_owned
  cases o2 <;> split <;> simp [RewriteKind.is_map_marker]

/-- Assembling the mapped-mode shape and its absent-input simulation. -/
theorem c7_assemble (ops pre ops3 ops4 ops5 ops6 ops7 : List RewriteKind)
    (heq : ops = pre ++ [RewriteKind.OptionMapBegin] ++
      (ops3 ++ ops4 ++ ops5 ++ ops6 ++ ops7) ++ [RewriteKind.OptionMapEnd])
    (hpre : ∀ op ∈ pre, ∃ m d, op = RewriteKind.OptionDowngrade m d)
    (hin : ∀ op ∈ ops3 ++ ops4 ++ ops5 ++ ops6 ++ ops7, op.is_map_marker = false) :
    ∃ pre' inner,
      ops = pre' ++ [RewriteKind.OptionMapBegin] ++ inner ++ [RewriteKind.OptionMapEnd] ∧
      (∀ op ∈ pre', ∃ m d, op = RewriteKind.OptionDowngrade m d) ∧
      (∀ op ∈ inner, op.is_map_marker = false) ∧
      opt_sim ops ⟨true, false, [], false⟩ = ⟨true, false, [], false⟩ := by
  refine ⟨pre, ops3 ++ ops4 ++ ops5 ++ ops6 ++ ops7, heq, hpre, hin, ?_⟩
  rw [heq]
  exact opt_sim_mapped _ _ hpre hin

/-- Counterexample for C7: a successful mapped-mode synthesis (both sides nullable,
ownership differing) whose emitted sequence does not start with the begin-map marker:
the pre-unwrap ownership downgrade is emitted first. -/
theorem c7_counterexample :
    try_build_cast_desc_desc (fun _ => "")
      ⟨.Box, .Single, false, true, .int⟩ ⟨.Imm, .Single, false, true, .int⟩
      = ([.OptionDowngrade false true, .OptionMapBegin, .OptionMapEnd], .ok ()) := rfl

/-- C7 (amended): every successful mapped-mode cast synthesis between two nullable
shapes emits a (possibly empty) prefix consisting only of option-downgrade
operations, then the begin-map marker, then marker-free inner operations, and ends
with the end-map marker; interpreting the whole sequence on an absent input yields an
absent output, executes none of the enclosed inner operations, and never faults. -/
theorem c7_mapped_mode (printTy : RTy → String) (d1 d2 : TypeDesc) (ops : List RewriteKind)
    (h1 : d1.option = true) (h2 : d2.option = true)
    (hne : ({ d1 with pointee_ty := d2.pointee_ty } : TypeDesc) ≠ d2)
    (hok : try_build_cast_desc_desc printTy d1 d2 = (ops, .ok ())) :
    ∃ pre inner,
      ops = pre ++ [RewriteKind.OptionMapBegin] ++ inner ++ [RewriteKind.OptionMapEnd] ∧
      (∀ op ∈ pre, ∃ m d, op = RewriteKind.OptionDowngrade m d) ∧
      (∀ op ∈ inner, op.is_map_marker = false) ∧
      opt_sim ops ⟨true, false, [], false⟩ = ⟨true, false, [], false⟩ := by
  have hp : RTy.erase_regions d1.pointee_ty = RTy.erase_regions d2.pointee_ty := by
    by_contra hcon
    unfold try_build_cast_desc_desc at hok
    rw [if_pos hcon] at hok
    simp at hok
  unfold try_build_cast_desc_desc at hok
  rw [if_neg (not_not_intro hp), if_neg hne] at hok
  rcases hP1 : tb_downgrade_for_unwrap { d1 with pointee_ty := d2.pointee_ty } d2 with ⟨ops1, f2⟩
  rw [hP1] at hok
  simp only [] at hok
  have hf2 : f2.option = true := by
    have h := tb_downgrade_option { d1 with pointee_ty := d2.pointee_ty } d2
    rw [hP1] at h
    simpa [h1] using h
  rw [tb_unwrap_mapped f2 d2 hf2 h2] at hok
  simp only [] at hok
  rcases hP3 : tb_resolve_dyn_owned { f2 with option := false } d2 with ⟨ops3, f4⟩
  rw [hP3] at hok
  simp only [] at hok
  rcases h4 : cast_ownership printTy f4 d2 true with ⟨ops4, r4⟩
  rw [h4] at hok
  cases r4 with
  | error e => simp at hok
  | ok own4 =>
    simp only [] at hok
    rcases h5 : cast_quantity own4 f4.qty d2.qty with ⟨ops5, r5⟩
    rw [h5] at hok
    cases r5 with
    | error e => simp at hok
    | ok qty5 =>
      simp only [] at hok
      rcases h6 : cast_ownership printTy
          { own := own4, qty := qty5, dyn_owned := f4.dyn_owned, option := f4.option,
            pointee_ty := f4.pointee_ty } d2 false with ⟨ops6, r6⟩
      rw [h6] at hok
      cases r6 with
      | error e => simp at hok
      | ok own6 =>
        simp only [if_true] at hok
        by_cases hy2 : d2.dyn_owned = true
        · simp only [if_pos hy2] at hok
          split at hok
          · simp only [Prod.mk.injEq, and_true] at hok
            refine c7_assemble ops ops1 ops3 ops4 ops5 ops6 [RewriteKind.DynOwnedWrap]
              ?_ ?_ ?_
            · rw [← hok]; simp [List.append_assoc]
            · intro op hop
              exact tb_downgrade_ops _ _ op (by rw [hP1]; exact hop)
            · intro op hop
              simp only [List.mem_append] at hop
              rcases hop with ((((h | h) | h) | h) | h)
              · exact tb_dyn_ops _ _ op (by rw [hP3]; exact h)
              · exact own_step_not_marker op
                  (cast_ownership_ops_own printTy f4 d2 true op (by rw [h4]; exact h))
              · obtain ⟨m, rfl⟩ := cast_quantity_ops own4 f4.qty d2.qty op
                  (by rw [h5]; exact h)
                rfl
              · exact own_step_not_marker op
                  (cast_ownership_ops_own printTy _ d2 false op (by rw [h6]; exact h))
              · simp only [List.mem_singleton] at h; subst h; rfl
          · simp at hok
        · simp only [if_neg hy2] at hok
          split at hok
          · simp only [Prod.mk.injEq, and_true] at hok
            refine c7_assemble ops ops1 ops3 ops4 ops5 ops6 [] ?_ ?_ ?_
            · rw [← hok]; simp [List.append_assoc]
            · intro op hop
              exact tb_downgrade_ops _ _ op (by rw [hP1]; exact hop)
            · intro op hop
              simp only [List.append_nil, List.mem_append] at hop
              rcases hop with (((h | h) | h) | h)
              · exact tb_dyn_ops _ _ op (by rw [hP3]; exact h)
              · exact own_step_not_marker op
                  (cast_ownership_ops_own printTy f4 d2 true op (by rw [h4]; exact h))
              · obtain ⟨m, rfl⟩ := cast_quantity_ops own4 f4.qty d2.qty op
                  (by rw [h5]; exact h)
                rfl
              · exact own_step_not_marker op
                  (cast_ownership_ops_own printTy _ d2 false op (by rw [h6]; exact h))
          · simp at hok

/-- Witness for C7 at a concrete input: `Option<Box<T>>` to `Option<&T>`. -/
theorem c7_mapped_mode_witness :
    ∃ pre inner,
      [RewriteKind.OptionDowngrade false true, RewriteKind.OptionMapBegin,
          RewriteKind.OptionMapEnd] =
        pre ++ [RewriteKind.OptionMapBegin] ++ inner ++ [RewriteKind.OptionMapEnd] ∧
      (∀ op ∈ pre, ∃ m d, op = RewriteKind.OptionDowngrade m d) ∧
      (∀ op ∈ inner, op.is_map_marker = false) ∧
      opt_sim [RewriteKind.OptionDowngrade false true, RewriteKind.OptionMapBegin,
          RewriteKind.OptionMapEnd] ⟨true, false, [], false⟩ =
        ⟨true, false, [], false⟩ :=
  c7_mapped_mode (fun _ => "") ⟨.Box, .Single, false, true, .int⟩
    ⟨.Imm, .Single, false, true, .int⟩
    [RewriteKind.OptionDowngrade false true, RewriteKind.OptionMapBegin,
      RewriteKind.OptionMapEnd] rfl rfl (by decide) rfl
/-- C10: for every invocation of the shape-reconciliation entry point on two labeled
types, if both sides' pointers carry the exempt-from-rewriting (FIXED) flag, or if
neither side's type is a raw pointer (including the case where both sides are
non-pointers), zero rewrite operations are emitted and no panic occurs. -/
theorem c10_fixed_and_safe_no_rewrites (ctx : Ctx) (from_lty to_lty : LTy)
    (h : ((ctx.flags from_lty.label).FIXED = true ∧ (ctx.flags to_lty.label).FIXED = true)
       ∨ (from_lty.ty.is_raw_ptr = false ∧ to_lty.ty.is_raw_ptr = false)) :
    build_cast_lty_lty ctx from_lty to_lty = .ok [] := by
  unfold build_cast_lty_lty
  rcases h with ⟨hf, ht⟩ | ⟨hf, ht⟩
  · split
    · rfl
    · simp only [hf, ht]
      split
      · rfl
      · rfl
  · split
    · rfl
    · simp [hf, ht]

/-- Witness for C10 at concrete inputs: both sides FIXED raw pointers, and both sides
non-pointers. -/
theorem c10_fixed_and_safe_no_rewrites_witness :
    build_cast_lty_lty { cellCtx with flags := fun _ => { FIXED := true } } ptrLty ptrLty
      = .ok [] ∧
    build_cast_lty_lty cellCtx intLty intLty = .ok [] :=
  ⟨c10_fixed_and_safe_no_rewrites _ ptrLty ptrLty (Or.inl ⟨rfl, rfl⟩),
   c10_fixed_and_safe_no_rewrites cellCtx intLty intLty (Or.inr ⟨rfl, rfl⟩)⟩

/-- Counterexample for C1: a pointer-offset call site whose required output cast
(owning slice to owning single) cannot be synthesized.  The claim says the walker
emits nothing for the call and continues normally with no panic; instead the whole
terminator visit panics (the builder unwraps the synthesis failure). -/
theorem c1_counterexample :
    visit_terminator offsetCtx offsetTerm ⟨0, 0⟩ vs0 = .error "unsupported cast kind" := rfl

/-- C1 (amended): pattern-recognition failures are local and non-fatal — a bulk-copy
call whose two pointers have no common pointee type, or a bulk-fill call whose
pointee admits no zero-fill plan, emits nothing, leaves the call intact, and the walk
continues with the state unchanged; but when the cast synthesis required at a site
fails, the walker panics: the builder unwraps the synthesizer's error, so the error
propagates out of the walk instead of being a local skip. -/
theorem c1_local_bail_but_cast_panic :
    (∀ (ctx : Ctx) (args : List Operand) (pl_ty : LTy) (s : VState),
      (pointee_lty ctx (type_of_operand ctx (args.getD 0 default))).filter
          (fun x => some x == pointee_lty ctx (type_of_operand ctx (args.getD 1 default)))
        = none →
      visit_call_memcpy ctx args pl_ty s = .ok s) ∧
    (∀ (ctx : Ctx) (args : List Operand) (pl_ty : LTy) (s : VState) (pt : LTy),
      pointee_lty ctx (type_of_operand ctx (args.getD 0 default)) = some pt →
      ZeroizeType.from_ty pt.ty = none →
      visit_call_memset ctx args pl_ty s = .ok s) ∧
    (∀ (ctx : Ctx) (from_ to_ : TypeDesc) (s : VState) (ops : List RewriteKind) (e : String),
      try_build_cast_desc_desc ctx.print_ty from_ to_ = (ops, .error e) →
      emit_cast_desc_desc ctx from_ to_ s = .error e) := by
  refine ⟨?_, ?_, ?_⟩
  · intro ctx args pl_ty s hnc
    unfold visit_call_memcpy enter
    simp only [hnc]
    simp [List.dropLast_concat]
    rfl
  · intro ctx args pl_ty s pt hpt hz
    unfold visit_call_memset enter
    simp only [hpt, hz]
    simp [List.dropLast_concat]
    rfl
  · intro ctx from_ to_ s ops e heq
    unfold emit_cast_desc_desc build_cast_desc_desc
    rw [heq]
    rfl

/-- Witness for C1 at concrete inputs: the mismatched-pointee memcpy and the
unplannable memset leave the state untouched; a failing desc-to-desc cast panics with
the synthesizer's message. -/
theorem c1_local_bail_but_cast_panic_witness :
    visit_call_memcpy memcpyCtx [.copy ⟨1, []⟩, .copy ⟨9, []⟩] ptrLty vs0 = .ok vs0 ∧
    visit_call_memset memsetCtx [.copy ⟨1, []⟩] ptrLty vs0 = .ok vs0 ∧
    emit_cast_desc_desc offsetCtx ⟨.Box, .Slice, false, false, .int⟩
      ⟨.Box, .Single, false, false, .int⟩ vs0 = .error "unsupported cast kind" :=
  ⟨c1_local_bail_but_cast_panic.1 memcpyCtx [.copy ⟨1, []⟩, .copy ⟨9, []⟩] ptrLty vs0 rfl,
   c1_local_bail_but_cast_panic.2.1 memsetCtx [.copy ⟨1, []⟩] ptrLty vs0
     (LTy.mk (.rawPtr false .int) none .nil) rfl rfl,
   c1_local_bail_but_cast_panic.2.2 offsetCtx ⟨.Box, .Slice, false, false, .int⟩
     ⟨.Box, .Single, false, false, .int⟩ vs0 [] "unsupported cast kind" rfl⟩

/-- Success of a bound `Except` computation factors through an intermediate value. -/
theorem except_bind_ok {ε α β : Type} {x : Except ε α} {k : α → Except ε β} {b : β} :
    (x >>= k) = .ok b ↔ ∃ a, x = .ok a ∧ k a = .ok b := by
  cases x <;> simp [Bind.bind, Except.bind]

/-- Tameness is monotone in the kind predicate. -/
theorem tame_mono {P Q : RewriteKind → Prop} {f} (hf : Tame P f)
    (hpq : ∀ op, P op → Q op) : Tame Q f := by
  intro s s' h
  obtain ⟨h1, h2, ⟨new, h3, h4⟩, h5⟩ := hf s s' h
  exact ⟨h1, h2, ⟨new, h3, fun pr hpr => hpq _ (h4 pr hpr)⟩, h5⟩

/-- The identity computation is tame. -/
theorem tame_pure_fun (P : RewriteKind → Prop) : Tame P (fun s => pure s) := by
  intro s s' h
  simp only [pure, Except.pure, Except.ok.injEq] at h
  subst h
  exact ⟨rfl, rfl, ⟨[], by simp, by simp⟩, rfl⟩

/-- `emit` leaves the sub-location path unchanged. -/
theorem emit_sub_loc (s : VState) (rw : RewriteKind) : (s.emit rw).sub_loc = s.sub_loc := rfl
/-- `emit` leaves the location unchanged. -/
theorem emit_loc (s : VState) (rw : RewriteKind) : (s.emit rw).loc = s.loc := rfl
/-- `emit` leaves the suppression reasons unchanged. -/
theorem emit_errors (s : VState) (rw : RewriteKind) : (s.emit rw).errors = s.errors := rfl
/-- `emit` appends exactly one rewrite at the current location and path. -/
theorem emit_rewrites (s : VState) (rw : RewriteKind) :
    (s.emit rw).rewrites = s.rewrites ++ [(s.loc, ⟨rw, s.sub_loc⟩)] := rfl

/-- `emit_ops` appends the batch at the current location and path, touching nothing
else. -/
theorem emit_ops_state (ops : List RewriteKind) (s : VState) :
    (s.emit_ops ops).sub_loc = s.sub_loc ∧ (s.emit_ops ops).loc = s.loc ∧
    (s.emit_ops ops).errors = s.errors ∧
    (s.emit_ops ops).rewrites
      = s.rewrites ++ ops.map (fun op => (s.loc, ⟨op, s.sub_loc⟩)) := by
  induction ops generalizing s with
  | nil => simp [VState.emit_ops]
  | cons op rest ih =>
    obtain ⟨i1, i2, i3, i4⟩ := ih (s.emit op)
    refine ⟨i1, i2, i3, ?_⟩
    rw [show (s.emit_ops (op :: rest)) = ((s.emit op).emit_ops rest) from rfl, i4]
    simp [VState.emit]

/-- `enter` preserves tameness: the pushed step is popped on the way out. -/
theorem tame_enter {P : RewriteKind → Prop} {sub : SubLoc} {f} (hf : Tame P f) :
    Tame P (enter sub f) := by
  intro s s' h
  unfold enter at h
  rw [except_bind_ok] at h
  obtain ⟨s2, h2, h3⟩ := h
  simp only [pure, Except.pure, Except.ok.injEq] at h3
  subst h3
  obtain ⟨e1, e2, ⟨new, e3, e4⟩, e5⟩ := hf _ _ h2
  refine ⟨?_, e2, ⟨new, e3, e4⟩, e5⟩
  simp [e1, List.dropLast_concat]

/-- Emitting one permitted rewrite is tame. -/
theorem tame_emit_fun (P : RewriteKind → Prop) (rw : RewriteKind) (h : P rw) :
    Tame P (fun s => pure (s.emit rw)) := by
  intro s s' hh
  simp only [pure, Except.pure, Except.ok.injEq] at hh
  subst hh
  exact ⟨rfl, rfl, ⟨[(s.loc, ⟨rw, s.sub_loc⟩)], rfl, by simpa using h⟩, rfl⟩

/-- Nullability-resolution emissions are cast operations. -/
theorem tb_unwrap_ops (d to_ : TypeDesc) :
    ∀ op ∈ (tb_unwrap_nullable d to_).1, op.is_cast_op = true := by
  unfold tb_unwrap_nullable
  split
  · simp [RewriteKind.is_cast_op, RewriteKind.is_own_step_op, RewriteKind.is_map_marker]
  · split <;>
      simp [RewriteKind.is_cast_op, RewriteKind.is_own_step_op, RewriteKind.is_map_marker]

/-- Downgrade-phase emissions are cast operations. -/
theorem tb_downgrade_ops_cast (d to_ : TypeDesc) :
    ∀ op ∈ (tb_downgrade_for_unwrap d to_).1, op.is_cast_op = true := by
  intro op hop
  obtain ⟨m, dr, rfl⟩ := tb_downgrade_ops d to_ op hop
  rfl

/-- Dynamic-ownership-resolution emissions are cast operations. -/
theorem tb_dyn_ops_cast (d to_ : TypeDesc) :
    ∀ op ∈ (tb_resolve_dyn_owned d to_).1, op.is_cast_op = true := by
  obtain ⟨o2, q2, y2, n2, p2⟩ := to_
  unfold tb_resolve_dyn_owned
  cases o2 <;> split <;>
    simp [RewriteKind.is_cast_op, RewriteKind.is_own_step_op, RewriteKind.is_map_marker]

/-- Ownership-step operations are cast operations. -/
theorem own_step_cast (op : RewriteKind) (h : op.is_own_step_op = true) :
    op.is_cast_op = true := by
  cases op <;> simp_all [RewriteKind.is_own_step_op, RewriteKind.is_cast_op]

/-- Concatenation preserves the all-cast-operations property. -/
theorem all_cast_append {l1 l2 : List RewriteKind}
    (h1 : ∀ op ∈ l1, op.is_cast_op = true) (h2 : ∀ op ∈ l2, op.is_cast_op = true) :
    ∀ op ∈ l1 ++ l2, op.is_cast_op = true := by
  intro op hop
  rcases List.mem_append.mp hop with h | h
  · exact h1 op h
  · exact h2 op h

/-- Every rewrite the cast synthesizer emits (on success or failure) is one of the
cast operation kinds. -/
theorem try_build_ops_cast (printTy : RTy → String) (a b : TypeDesc) :
    ∀ op ∈ (try_build_cast_desc_desc printTy a b).1, op.is_cast_op = true := by
  unfold try_build_cast_desc_desc
  by_cases hg : RTy.erase_regions a.pointee_ty ≠ RTy.erase_regions b.pointee_ty
  · rw [if_pos hg]; simp
  · rw [if_neg hg]
    by_cases hid : ({ a with pointee_ty := b.pointee_ty } : TypeDesc) = b
    · rw [if_pos hid]; simp
    · rw [if_neg hid]
      rcases hP1 : tb_downgrade_for_unwrap { a with pointee_ty := b.pointee_ty } b
        with ⟨ops1, f2⟩
      have hc1 : ∀ op ∈ ops1, op.is_cast_op = true := by
        intro op hop; exact tb_downgrade_ops_cast _ b op (by rw [hP1]; exact hop)
      try simp only []
      rcases hP2 : tb_unwrap_nullable f2 b with ⟨ops2, f3, iom⟩
      have hc2 : ∀ op ∈ ops2, op.is_cast_op = true := by
        intro op hop; exact tb_unwrap_ops f2 b op (by rw [hP2]; exact hop)
      try simp only []
      rcases hP3 : tb_resolve_dyn_owned f3 b with ⟨ops3, f4⟩
      have hc3 : ∀ op ∈ ops3, op.is_cast_op = true := by
        intro op hop; exact tb_dyn_ops_cast f3 b op (by rw [hP3]; exact hop)
      try simp only []
      rcases h4 : cast_ownership printTy f4 b true with ⟨ops4, r4⟩
      have hc4 : ∀ op ∈ ops4, op.is_cast_op = true := by
        intro op hop
        exact own_step_cast op (cast_ownership_ops_own printTy f4 b true op
          (by rw [h4]; exact hop))
      try simp only []
      cases r4 with
      | error e =>
        exact all_cast_append (all_cast_append (all_cast_append hc1 hc2) hc3) hc4
      | ok own4 =>
        try simp only []
        rcases h5 : cast_quantity own4 f4.qty b.qty with ⟨ops5, r5⟩
        have hc5 : ∀ op ∈ ops5, op.is_cast_op = true := by
          intro op hop
          obtain ⟨m, rfl⟩ := cast_quantity_ops own4 f4.qty b.qty op (by rw [h5]; exact hop)
          rfl
        try simp only []
        cases r5 with
        | error e =>
          exact all_cast_append (all_cast_append (all_cast_append
            (all_cast_append hc1 hc2) hc3) hc4) hc5
        | ok qty5 =>
          try simp only []
          rcases h6 : cast_ownership printTy
              { own := own4, qty := qty5, dyn_owned := f4.dyn_owned, option := f4.option,
                pointee_ty := f4.pointee_ty } b false with ⟨ops6, r6⟩
          have hc6 : ∀ op ∈ ops6, op.is_cast_op = true := by
            intro op hop
            exact own_step_cast op (cast_ownership_ops_own printTy _ b false op
              (by rw [h6]; exact hop))
          try simp only []
          cases r6 with
          | error e =>
            exact all_cast_append (all_cast_append (all_cast_append (all_cast_append
              (all_cast_append hc1 hc2) hc3) hc4) hc5) hc6
          | ok own6 =>
            try simp only []
            have hc16 : ∀ op ∈ ops1 ++ ops2 ++ ops3 ++ ops4 ++ ops5 ++ ops6,
                op.is_cast_op = true :=
              all_cast_append (all_cast_append (all_cast_append (all_cast_append
                (all_cast_append hc1 hc2) hc3) hc4) hc5) hc6
            have hWrap : ∀ op ∈ [RewriteKind.DynOwnedWrap], op.is_cast_op = true := by
              decide
            have hEnd : ∀ op ∈ [RewriteKind.OptionMapEnd], op.is_cast_op = true := by
              decide
            have hSome : ∀ op ∈ [RewriteKind.OptionSome], op.is_cast_op = true := by
              decide
            have hNil : ∀ op ∈ ([] : List RewriteKind), op.is_cast_op = true := by
              decide
            by_cases h7 : b.dyn_owned = true
            · simp only [if_pos h7]
              by_cases hio : iom = true
              · simp only [if_pos hio]
                split
                · exact all_cast_append (all_cast_append hc16 hWrap) hEnd
                · exact all_cast_append (all_cast_append hc16 hWrap) hEnd
              · simp only [if_neg hio]
                by_cases hbo : (!f4.option && b.option) = true
                · simp only [if_pos hbo]
                  split
                  · exact all_cast_append (all_cast_append hc16 hWrap) hSome
                  · exact all_cast_append (all_cast_append hc16 hWrap) hSome
                · simp only [if_neg hbo]
                  split
                  · exact all_cast_append (all_cast_append hc16 hWrap) hNil
                  · exact all_cast_append (all_cast_append hc16 hWrap) hNil
            · simp only [if_neg h7]
              by_cases hio : iom = true
              · simp only [if_pos hio]
                split
                · exact all_cast_append (all_cast_append hc16 hNil) hEnd
                · exact all_cast_append (all_cast_append hc16 hNil) hEnd
              · simp only [if_neg hio]
                by_cases hbo : (!f4.option && b.option) = true
                · simp only [if_pos hbo]
                  split
                  · exact all_cast_append (all_cast_append hc16 hNil) hSome
                  · exact all_cast_append (all_cast_append hc16 hNil) hSome
                · simp only [if_neg hbo]
                  split
                  · exact all_cast_append (all_cast_append hc16 hNil) hNil
                  · exact all_cast_append (all_cast_append hc16 hNil) hNil

/-- Cast operations are never `Cell` access rewrites. -/
theorem cast_not_cell : ∀ op : RewriteKind, op.is_cast_op = true → op.is_cell_op = false := by
  intro op h
  cases op <;> simp_all [RewriteKind.is_cast_op, RewriteKind.is_own_step_op,
    RewriteKind.is_map_marker, RewriteKind.is_cell_op]

/-- A successful `build_cast_desc_desc` returns only cast operations. -/
theorem build_cast_desc_desc_ops_cast (pt : RTy → String) (a b : TypeDesc)
    (ops : List RewriteKind) (h : build_cast_desc_desc pt a b = .ok ops) :
    ∀ op ∈ ops, op.is_cast_op = true := by
  unfold build_cast_desc_desc at h
  rcases ht : try_build_cast_desc_desc pt a b with ⟨ops', r⟩
  rw [ht] at h
  cases r with
  | error e => simp at h
  | ok u =>
    cases u
    simp only [Except.ok.injEq] at h
    subst h
    intro op hop
    exact try_build_ops_cast pt a b op (by rw [ht]; exact hop)

/-- A successful `build_cast_lty_desc` returns only cast operations. -/
theorem build_cast_lty_desc_ops_cast (ctx : Ctx) (f : LTy) (t : TypeDesc)
    (ops : List RewriteKind) (h : build_cast_lty_desc ctx f t = .ok ops) :
    ∀ op ∈ ops, op.is_cast_op = true := by
  unfold build_cast_lty_desc at h
  exact build_cast_desc_desc_ops_cast _ _ _ _ h

/-- A successful `build_cast_desc_lty` returns only cast operations. -/
theorem build_cast_desc_lty_ops_cast (ctx : Ctx) (f : TypeDesc) (t : LTy)
    (ops : List RewriteKind) (h : build_cast_desc_lty ctx f t = .ok ops) :
    ∀ op ∈ ops, op.is_cast_op = true := by
  unfold build_cast_desc_lty at h
  exact build_cast_desc_desc_ops_cast _ _ _ _ h

/-- A successful `build_cast_lty_lty` returns only cast operations. -/
theorem build_cast_lty_lty_ops_cast (ctx : Ctx) (f t : LTy)
    (ops : List RewriteKind) (h : build_cast_lty_lty ctx f t = .ok ops) :
    ∀ op ∈ ops, op.is_cast_op = true := by
  unfold build_cast_lty_lty at h
  split at h
  · simp only [Except.ok.injEq] at h; subst h; simp
  · simp only [] at h
    split at h
    · simp only [Except.ok.injEq] at h; subst h; simp
    · split at h
      · exact build_cast_desc_desc_ops_cast _ _ _ _ h
      · exact build_cast_desc_lty_ops_cast _ _ _ _ h
      · exact build_cast_lty_desc_ops_cast _ _ _ _ h
      · simp only [Except.ok.injEq] at h; subst h; simp

/-- A successful `build_cast_lty_adjust` returns only cast operations. -/
theorem build_cast_lty_adjust_ops_cast (ctx : Ctx) (f : LTy) (adj : TypeDesc → TypeDesc)
    (ops : List RewriteKind) (h : build_cast_lty_adjust ctx f adj = .ok ops) :
    ∀ op ∈ ops, op.is_cast_op = true := by
  unfold build_cast_lty_adjust at h
  split at h
  · simp only [Except.ok.injEq] at h; subst h; simp
  · split at h
    · simp only [Except.ok.injEq] at h; subst h; simp
    · split at h
      · simp only [Except.ok.injEq] at h; subst h; simp
      · exact build_cast_desc_desc_ops_cast _ _ _ _ h

/-- A successful `build_cast_adjust_lty` returns only cast operations. -/
theorem build_cast_adjust_lty_ops_cast (ctx : Ctx) (adj : TypeDesc → TypeDesc) (t : LTy)
    (ops : List RewriteKind) (h : build_cast_adjust_lty ctx adj t = .ok ops) :
    ∀ op ∈ ops, op.is_cast_op = true := by
  unfold build_cast_adjust_lty at h
  split at h
  · simp only [Except.ok.injEq] at h; subst h; simp
  · split at h
    · simp only [Except.ok.injEq] at h; subst h; simp
    · split at h
      · simp only [Except.ok.injEq] at h; subst h; simp
      · exact build_cast_desc_desc_ops_cast _ _ _ _ h

/-- Emitting the output of a cast builder is tame for the no-cell-ops predicate. -/
theorem tame_emit_builder (build : Except String (List RewriteKind))
    (hops : ∀ ops, build = .ok ops → ∀ op ∈ ops, op.is_cast_op = true) :
    Tame (fun op => op.is_cell_op = false)
      (fun s => do
        let ops ← build
        pure (s.emit_ops ops)) := by
  intro s s' h
  rw [except_bind_ok] at h
  obtain ⟨ops, h1, h2⟩ := h
  simp only [pure, Except.pure, Except.ok.injEq] at h2
  subst h2
  obtain ⟨e1, e2, e3, e4⟩ := emit_ops_state ops s
  refine ⟨e1, e2, ⟨ops.map (fun op => (s.loc, ⟨op, s.sub_loc⟩)), e4, ?_⟩, e3⟩
  intro pr hpr
  simp only [List.mem_map] at hpr
  obtain ⟨op, hop, rfl⟩ := hpr
  exact cast_not_cell op (hops ops h1 op hop)

/-- `emit_cast_desc_desc` never emits `Cell` rewrites and is tame. -/
theorem tame_nc_emit_cast_desc_desc (ctx : Ctx) (a b : TypeDesc) :
    Tame (fun op => op.is_cell_op = false) (emit_cast_desc_desc ctx a b) :=
  tame_emit_builder _ (fun _ h => build_cast_desc_desc_ops_cast _ _ _ _ h)

/-- `emit_cast_lty_desc` never emits `Cell` rewrites and is tame. -/
theorem tame_nc_emit_cast_lty_desc (ctx : Ctx) (f : LTy) (t : TypeDesc) :
    Tame (fun op => op.is_cell_op = false) (emit_cast_lty_desc ctx f t) :=
  tame_emit_builder _ (fun _ h => build_cast_lty_desc_ops_cast _ _ _ _ h)

/-- `emit_cast_lty_lty` never emits `Cell` rewrites and is tame. -/
theorem tame_nc_emit_cast_lty_lty (ctx : Ctx) (f t : LTy) :
    Tame (fun op => op.is_cell_op = false) (emit_cast_lty_lty ctx f t) :=
  tame_emit_builder _ (fun _ h => build_cast_lty_lty_ops_cast _ _ _ _ h)

/-- `emit_cast_lty_adjust` never emits `Cell` rewrites and is tame. -/
theorem tame_nc_emit_cast_lty_adjust (ctx : Ctx) (f : LTy) (adj : TypeDesc → TypeDesc) :
    Tame (fun op => op.is_cell_op = false) (emit_cast_lty_adjust ctx f adj) :=
  tame_emit_builder _ (fun _ h => build_cast_lty_adjust_ops_cast _ _ _ _ h)

/-- `emit_cast_adjust_lty` never emits `Cell` rewrites and is tame. -/
theorem tame_nc_emit_cast_adjust_lty (ctx : Ctx) (adj : TypeDesc → TypeDesc) (t : LTy) :
    Tame (fun op => op.is_cell_op = false) (emit_cast_adjust_lty ctx adj t) :=
  tame_emit_builder _ (fun _ h => build_cast_adjust_lty_ops_cast _ _ _ _ h)
/-- The empty step is OK. -/
theorem step_refl (P : RewriteKind → Prop) (s : VState) : StepOk P s s :=
  ⟨rfl, rfl, ⟨[], by simp, by simp⟩, rfl⟩

/-- Emitting one permitted rewrite extends a step. -/
theorem step_emit {P : RewriteKind → Prop} {s s1 : VState} (h : StepOk P s s1)
    (rw : RewriteKind) (hP : P rw) : StepOk P s (s1.emit rw) := by
  obtain ⟨e1, e2, ⟨new, e3, e4⟩, e5⟩ := h
  refine ⟨e1, e2, ⟨new ++ [(s1.loc, ⟨rw, s1.sub_loc⟩)], ?_, ?_⟩, e5⟩
  · simp [VState.emit, e3]
  · intro pr hpr
    rcases List.mem_append.mp hpr with hh | hh
    · exact e4 pr hh
    · simp only [List.mem_singleton] at hh
      subst hh
      exact hP

/-- Steps compose. -/
theorem step_trans {P : RewriteKind → Prop} {s s1 s2 : VState} (h1 : StepOk P s s1)
    (h2 : StepOk P s1 s2) : StepOk P s s2 := by
  obtain ⟨e1, e2, ⟨n1, e3, e4⟩, e5⟩ := h1
  obtain ⟨f1, f2, ⟨n2, f3, f4⟩, f5⟩ := h2
  refine ⟨f1.trans e1, f2.trans e2, ⟨n1 ++ n2, ?_, ?_⟩, f5.trans e5⟩
  · rw [f3, e3, List.append_assoc]
  · intro pr hpr
    rcases List.mem_append.mp hpr with hh | hh
    · exact e4 pr hh
    · exact f4 pr hh

/-- Eliminator form of `tame_enter`, convenient after unfolding a visitor. -/
theorem tame_enter' {P : RewriteKind → Prop} {sub : SubLoc} {f} {s s' : VState}
    (h : enter sub f s = .ok s') (hf : Tame P f) : StepOk P s s' :=
  tame_enter hf s s' h

/-- `visit_place_ref` never emits `Cell` rewrites and is tame. -/
theorem tame_nc_visit_place_ref (ctx : Ctx) (proj_ltys : List LTy) (access : PlaceAccess) :
    ∀ revProj, Tame (fun op => op.is_cell_op = false)
      (visit_place_ref ctx revProj proj_ltys access) := by
  intro revProj
  induction revProj with
  | nil =>
    intro s s' h
    unfold visit_place_ref at h
    simp only [pure, Except.pure, Except.ok.injEq] at h
    subst h
    exact step_refl _ _
  | cons last rest ih =>
    cases last with
    | deref =>
      intro s s' h
      unfold visit_place_ref at h
      refine tame_enter' h ?_
      intro s s' h
      rw [except_bind_ok] at h
      obtain ⟨s1, h1, h2⟩ := h
      have hrec := ih s s1 h1
      simp only [pure, Except.pure, Except.ok.injEq] at h2
      subst h2
      repeat
        first
        | exact hrec
        | refine step_emit ?_ _ rfl
        | split
    | field idx =>
      intro s s' h
      unfold visit_place_ref at h
      exact tame_enter' h ih
    | index =>
      intro s s' h
      unfold visit_place_ref at h
      exact tame_enter' h ih
    | constantIndex =>
      intro s s' h
      unfold visit_place_ref at h
      exact tame_enter' h ih
    | subslice =>
      intro s s' h
      unfold visit_place_ref at h
      exact tame_enter' h ih
    | downcast =>
      intro s s' h
      unfold visit_place_ref at h
      simp only [pure, Except.pure, Except.ok.injEq] at h
      subst h
      exact step_refl _ _

/-- `visit_place` never emits `Cell` rewrites and is tame. -/
theorem tame_nc_visit_place (ctx : Ctx) (pl : Place) (access : PlaceAccess) :
    Tame (fun op => op.is_cell_op = false) (visit_place ctx pl access) := by
  intro s s' h
  unfold visit_place at h
  exact tame_nc_visit_place_ref ctx _ access _ s s' h

/-- `visit_operand` never emits `Cell` rewrites and is tame. -/
theorem tame_nc_visit_operand (ctx : Ctx) (op : Operand) (expect_ty : Option LTy) :
    Tame (fun op => op.is_cell_op = false) (visit_operand ctx op expect_ty) := by
  intro s s' h
  unfold visit_operand at h
  cases op with
  | constant c =>
    simp only [pure, Except.pure, Except.ok.injEq] at h
    subst h
    exact step_refl _ _
  | copy pl =>
    rw [except_bind_ok] at h
    obtain ⟨s1, h1, h2⟩ := h
    have hs1 := tame_enter' h1 (tame_nc_visit_place ctx pl .Move)
    cases expect_ty with
    | none =>
      simp only [pure, Except.pure, Except.ok.injEq] at h2
      subst h2
      exact hs1
    | some ety =>
      simp only [] at h2
      split at h2
      · exact step_trans hs1 (tame_nc_emit_cast_lty_lty ctx _ ety s1 s' h2)
      · simp only [pure, Except.pure, Except.ok.injEq] at h2
        subst h2
        exact hs1
  | move pl =>
    rw [except_bind_ok] at h
    obtain ⟨s1, h1, h2⟩ := h
    have hs1 := tame_enter' h1 (tame_nc_visit_place ctx pl .Move)
    cases expect_ty with
    | none =>
      simp only [pure, Except.pure, Except.ok.injEq] at h2
      subst h2
      exact hs1
    | some ety =>
      simp only [] at h2
      split at h2
      · exact step_trans hs1 (tame_nc_emit_cast_lty_lty ctx _ ety s1 s' h2)
      · simp only [pure, Except.pure, Except.ok.injEq] at h2
        subst h2
        exact hs1

/-- `visit_operand_desc` never emits `Cell` rewrites and is tame. -/
theorem tame_nc_visit_operand_desc (ctx : Ctx) (op : Operand) (expect_desc : TypeDesc) :
    Tame (fun op => op.is_cell_op = false) (visit_operand_desc ctx op expect_desc) := by
  intro s s' h
  unfold visit_operand_desc at h
  cases op with
  | constant c =>
    simp only [pure, Except.pure, Except.ok.injEq] at h
    subst h
    exact step_refl _ _
  | copy pl =>
    rw [except_bind_ok] at h
    obtain ⟨s1, h1, h2⟩ := h
    have hs1 := tame_nc_visit_place ctx pl .Move s s1 h1
    simp only [] at h2
    split at h2
    · exact step_trans hs1 (tame_nc_emit_cast_lty_desc ctx _ expect_desc s1 s' h2)
    · simp only [pure, Except.pure, Except.ok.injEq] at h2
      subst h2
      exact hs1
  | move pl =>
    rw [except_bind_ok] at h
    obtain ⟨s1, h1, h2⟩ := h
    have hs1 := tame_nc_visit_place ctx pl .Move s s1 h1
    simp only [] at h2
    split at h2
    · exact step_trans hs1 (tame_nc_emit_cast_lty_desc ctx _ expect_desc s1 s' h2)
    · simp only [pure, Except.pure, Except.ok.injEq] at h2
      subst h2
      exact hs1
/-- The operand loop of `visit_rvalue` never emits `Cell` rewrites and is tame. -/
theorem tame_nc_visit_rvalue_operands (ctx : Ctx) (ops : List Operand) :
    ∀ i, Tame (fun op => op.is_cell_op = false) (visit_rvalue_operands ctx i ops) := by
  induction ops with
  | nil =>
    intro i s s' h
    unfold visit_rvalue_operands at h
    simp only [pure, Except.pure, Except.ok.injEq] at h
    subst h
    exact step_refl _ _
  | cons op rest ih =>
    intro i s s' h
    unfold visit_rvalue_operands at h
    rw [except_bind_ok] at h
    obtain ⟨s1, h1, h2⟩ := h
    exact step_trans (tame_enter' h1 (tame_nc_visit_operand ctx op none)) (ih (i + 1) s1 s' h2)

/-- `visit_rvalue` never emits `Cell` rewrites and is tame. -/
theorem tame_nc_visit_rvalue (ctx : Ctx) (rv : Rvalue) (expect_ty : Option LTy) :
    Tame (fun op => op.is_cell_op = false) (visit_rvalue ctx rv expect_ty) := by
  intro s s' h
  unfold visit_rvalue at h
  cases rv with
  | use op => exact tame_enter' h (tame_nc_visit_operand ctx op expect_ty)
  | repeat' op => exact tame_enter' h (tame_nc_visit_operand ctx op none)
  | ref kind pl =>
    try simp only [] at h
    rw [except_bind_ok] at h
    obtain ⟨s1, h1, h2⟩ := h
    have hs1 := tame_enter' h1 (tame_nc_visit_place ctx pl _)
    cases expect_ty with
    | none =>
      simp only [pure, Except.pure, Except.ok.injEq] at h2
      subst h2
      exact hs1
    | some ety =>
      try simp only [] at h2
      split at h2 <;>
        (simp only [pure, Except.pure, Except.ok.injEq] at h2; subst h2)
      · exact step_emit hs1 _ (by rfl)
      · exact hs1
  | threadLocalRef =>
    simp only [pure, Except.pure, Except.ok.injEq] at h
    subst h
    exact step_refl _ _
  | addressOf mutbl pl =>
    try simp only [] at h
    rw [except_bind_ok] at h
    obtain ⟨s1, h1, h2⟩ := h
    have hs1 := tame_enter' h1 (tame_nc_visit_place ctx pl _)
    cases expect_ty with
    | none =>
      simp only [pure, Except.pure, Except.ok.injEq] at h2
      subst h2
      exact hs1
    | some ety =>
      simp only [pure, Except.pure, Except.ok.injEq] at h2
      subst h2
      try simp only []
      split
      · refine step_emit ?_ _ (by rfl)
        split <;> first | exact hs1 | exact step_emit hs1 _ (by rfl)
      · split <;> first | exact hs1 | exact step_emit hs1 _ (by rfl)
  | len pl => exact tame_enter' h (tame_nc_visit_place ctx pl _)
  | cast op castTy =>
    try simp only [] at h
    cases expect_ty with
    | none =>
      simp only [ite_self] at h
      rw [except_bind_ok] at h
      obtain ⟨s1, h1, h2⟩ := h
      simp only [pure, Except.pure, Except.ok.injEq] at h2
      subst h2
      exact tame_enter' h1 (tame_nc_visit_operand ctx op none)
    | some rv_lty =>
      try simp only [] at h
      rw [except_bind_ok] at h
      obtain ⟨s1, h1, h2⟩ := h
      have hs1 : StepOk (fun op => op.is_cell_op = false) s s1 := by
        by_cases hb : (is_null_const_operand op && castTy.is_raw_ptr) = true
        · rw [if_pos hb] at h1
          by_cases hn : is_nullable ctx rv_lty.label = true
          · rw [if_pos hn] at h1
            exact step_trans (step_emit (step_refl _ _) _ (by rfl))
              (tame_enter' h1 (tame_nc_visit_operand ctx op none))
          · rw [if_neg hn] at h1
            exact tame_enter' h1 (tame_nc_visit_operand ctx op none)
        · rw [if_neg hb] at h1
          exact tame_enter' h1 (tame_nc_visit_operand ctx op none)
      try simp only [] at h2
      repeat split at h2
      all_goals simp only [pure, Except.pure, Except.ok.injEq] at h2
      all_goals subst h2
      all_goals first | exact hs1 | exact step_emit hs1 _ (by rfl)
  | binaryOp op1 op2 =>
    rw [except_bind_ok] at h
    obtain ⟨s1, h1, h2⟩ := h
    exact step_trans (tame_enter' h1 (tame_nc_visit_operand ctx op1 none))
      (tame_enter' h2 (tame_nc_visit_operand ctx op2 none))
  | checkedBinaryOp op1 op2 =>
    rw [except_bind_ok] at h
    obtain ⟨s1, h1, h2⟩ := h
    exact step_trans (tame_enter' h1 (tame_nc_visit_operand ctx op1 none))
      (tame_enter' h2 (tame_nc_visit_operand ctx op2 none))
  | nullaryOp =>
    simp only [pure, Except.pure, Except.ok.injEq] at h
    subst h
    exact step_refl _ _
  | unaryOp op => exact tame_enter' h (tame_nc_visit_operand ctx op none)
  | discriminant pl => exact tame_enter' h (tame_nc_visit_place ctx pl _)
  | aggregate ops => exact tame_nc_visit_rvalue_operands ctx ops 0 s s' h
  | shallowInitBox op => exact tame_enter' h (tame_nc_visit_operand ctx op none)
  | copyForDeref pl => exact tame_enter' h (tame_nc_visit_place ctx pl _)

/-- The right-hand-side stage of the assign arm never emits `Cell` rewrites. -/
theorem tame_nc_vs_rhs (ctx : Ctx) (pl : Place) (rv : Rvalue) (rv_lty pl_lty : LTy) :
    Tame (fun op => op.is_cell_op = false) (vs_rhs ctx pl rv rv_lty pl_lty) := by
  intro s s' h
  unfold vs_rhs at h
  try simp only [] at h
  split at h
  · rw [except_bind_ok] at h
    obtain ⟨s1, h1, h2⟩ := h
    have hs1 := tame_enter' h1 (tame_enter (tame_nc_visit_place ctx _ .Mut))
    exact step_trans (step_emit hs1 _ (by rfl))
      (tame_nc_emit_cast_lty_lty ctx rv_lty pl_lty _ s' h2)
  · rw [except_bind_ok] at h
    obtain ⟨s1, h1, h2⟩ := h
    exact step_trans (tame_nc_visit_rvalue ctx rv (some rv_lty) s s1 h1)
      (tame_nc_emit_cast_lty_lty ctx rv_lty pl_lty s1 s' h2)

/-- `visit_call_args` never emits `Cell` rewrites and is tame. -/
theorem tame_nc_visit_call_args (ctx : Ctx) (lsig : LFnSig) (args : List Operand) :
    ∀ i, Tame (fun op => op.is_cell_op = false) (visit_call_args ctx lsig i args) := by
  induction args with
  | nil =>
    intro i s s' h
    unfold visit_call_args at h
    simp only [pure, Except.pure, Except.ok.injEq] at h
    subst h
    exact step_refl _ _
  | cons op rest ih =>
    intro i s s' h
    unfold visit_call_args at h
    try simp only [] at h
    split at h
    · rw [except_bind_ok] at h
      obtain ⟨s1, h1, h2⟩ := h
      exact step_trans (tame_enter' h1 (tame_nc_visit_operand ctx op _)) (ih (i + 1) s1 s' h2)
    · rw [except_bind_ok] at h
      obtain ⟨s1, h1, h2⟩ := h
      simp only [pure, Except.pure, Except.ok.injEq] at h1
      subst h1
      exact ih (i + 1) s s' h2

/-- `visit_ptr_offset` never emits `Cell` rewrites and is tame. -/
theorem tame_nc_visit_ptr_offset (ctx : Ctx) (op : Operand) (result_ty : LTy) :
    Tame (fun op => op.is_cell_op = false) (visit_ptr_offset ctx op result_ty) := by
  intro s s' h
  unfold visit_ptr_offset at h
  try simp only [] at h
  split at h
  all_goals rw [except_bind_ok] at h
  all_goals obtain ⟨q, hq, h2⟩ := h
  case h_4 => exact Except.noConfusion hq
  all_goals
    refine tame_enter' h2 ?_
  all_goals
    intro s s' h
  all_goals rw [except_bind_ok] at h
  all_goals obtain ⟨s1, h1, h3⟩ := h
  all_goals
    have hs1 := tame_enter' h1 (tame_nc_visit_operand_desc ctx op _)
  all_goals
    refine step_trans ?_ (tame_nc_emit_cast_desc_desc ctx _ _ _ s' h3)
  all_goals split
  all_goals first | exact step_emit hs1 _ (by rfl)

/-- `visit_slice_as_ptr` never emits `Cell` rewrites and is tame. -/
theorem tame_nc_visit_slice_as_ptr (ctx : Ctx) (elem_ty : RTy) (op : Operand)
    (result_lty : LTy) :
    Tame (fun op => op.is_cell_op = false) (visit_slice_as_ptr ctx elem_ty op result_lty) := by
  intro s s' h
  unfold visit_slice_as_ptr at h
  try simp only [] at h
  refine tame_enter' h ?_
  intro s s' h
  exact step_trans (step_emit (step_refl _ _) _ (by rfl))
    (tame_nc_emit_cast_desc_desc ctx _ _ _ s' h)

/-- `visit_call_local_def` never emits `Cell` rewrites and is tame. -/
theorem tame_nc_visit_call_local_def (ctx : Ctx) (def_id : Nat) (args : List Operand)
    (pl_ty : LTy) :
    Tame (fun op => op.is_cell_op = false) (visit_call_local_def ctx def_id args pl_ty) := by
  intro s s' h
  unfold visit_call_local_def at h
  split at h
  · refine tame_enter' h ?_
    intro s s' h
    rw [except_bind_ok] at h
    obtain ⟨s1, h1, h2⟩ := h
    refine step_trans (tame_nc_visit_call_args ctx _ args 0 s s1 h1) ?_
    split at h2
    · exact tame_nc_emit_cast_lty_lty ctx _ pl_ty s1 s' h2
    · simp only [pure, Except.pure, Except.ok.injEq] at h2
      subst h2
      exact step_refl _ _
  · simp only [pure, Except.pure, Except.ok.injEq] at h
    subst h
    exact step_refl _ _

/-- `visit_call_memcpy` never emits `Cell` rewrites and is tame. -/
theorem tame_nc_visit_call_memcpy (ctx : Ctx) (args : List Operand) (pl_ty : LTy) :
    Tame (fun op => op.is_cell_op = false) (visit_call_memcpy ctx args pl_ty) := by
  intro s s' h
  unfold visit_call_memcpy at h
  refine tame_enter' h ?_
  intro s s' h
  try simp only [] at h
  split at h
  · simp only [pure, Except.pure, Except.ok.injEq] at h
    subst h
    exact step_refl _ _
  · split at h
    · exact step_trans (step_emit (step_refl _ _) _ (by rfl))
        (tame_nc_emit_cast_lty_lty ctx _ pl_ty _ s' h)
    · simp only [pure, Except.pure, Except.ok.injEq] at h
      subst h
      exact step_emit (step_refl _ _) _ (by rfl)

/-- `visit_call_memset` never emits `Cell` rewrites and is tame. -/
theorem tame_nc_visit_call_memset (ctx : Ctx) (args : List Operand) (pl_ty : LTy) :
    Tame (fun op => op.is_cell_op = false) (visit_call_memset ctx args pl_ty) := by
  intro s s' h
  unfold visit_call_memset at h
  refine tame_enter' h ?_
  intro s s' h
  try simp only [] at h
  split at h
  · simp only [pure, Except.pure, Except.ok.injEq] at h
    subst h
    exact step_refl _ _
  · split at h
    · simp only [pure, Except.pure, Except.ok.injEq] at h
      subst h
      exact step_refl _ _
    · split at h
      · exact step_trans (step_emit (step_refl _ _) _ (by rfl))
          (tame_nc_emit_cast_lty_lty ctx _ pl_ty _ s' h)
      · simp only [pure, Except.pure, Except.ok.injEq] at h
        subst h
        exact step_emit (step_refl _ _) _ (by rfl)

/-- `visit_call_is_null` never emits `Cell` rewrites and is tame. -/
theorem tame_nc_visit_call_is_null (ctx : Ctx) (args : List Operand) :
    Tame (fun op => op.is_cell_op = false) (visit_call_is_null ctx args) := by
  intro s s' h
  unfold visit_call_is_null at h
  refine tame_enter' h ?_
  intro s s' h
  try simp only [] at h
  repeat split at h
  all_goals simp only [pure, Except.pure, Except.ok.injEq] at h
  all_goals subst h
  all_goals first | exact step_refl _ _ | exact step_emit (step_refl _ _) _ (by rfl)

/-- `visit_call_null` never emits `Cell` rewrites and is tame. -/
theorem tame_nc_visit_call_null (ctx : Ctx) (pl_ty : LTy) :
    Tame (fun op => op.is_cell_op = false) (visit_call_null ctx pl_ty) := by
  intro s s' h
  unfold visit_call_null at h
  refine tame_enter' h ?_
  intro s s' h
  try simp only [] at h
  repeat split at h
  all_goals
    first
    | exact Except.noConfusion h
    | (simp only [pure, Except.pure, Except.ok.injEq] at h; subst h;
       first | exact step_refl _ _ | exact step_emit (step_refl _ _) _ (by rfl))

/-- `visit_call_malloc_calloc` never emits `Cell` rewrites and is tame. -/
theorem tame_nc_visit_call_malloc_calloc (ctx : Ctx) (isCalloc : Bool)
    (destination : Place) :
    Tame (fun op => op.is_cell_op = false) (visit_call_malloc_calloc ctx isCalloc destination) := by
  intro s s' h
  unfold visit_call_malloc_calloc at h
  refine tame_enter' h ?_
  intro s s' h
  try simp only [] at h
  split at h
  · simp only [pure, Except.pure, Except.ok.injEq] at h
    subst h
    exact step_refl _ _
  · split at h
    · simp only [pure, Except.pure, Except.ok.injEq] at h
      subst h
      exact step_refl _ _
    · refine step_trans ?_ (tame_nc_emit_cast_adjust_lty ctx _ _ _ s' h)
      split
      · exact step_emit (step_refl _ _) _ (by rfl)
      · exact step_emit (step_refl _ _) _ (by rfl)

/-- `visit_call_free` never emits `Cell` rewrites and is tame. -/
theorem tame_nc_visit_call_free (ctx : Ctx) (args : List Operand) :
    Tame (fun op => op.is_cell_op = false) (visit_call_free ctx args) := by
  intro s s' h
  unfold visit_call_free at h
  refine tame_enter' h ?_
  intro s s' h
  try simp only [] at h
  split at h
  · simp only [pure, Except.pure, Except.ok.injEq] at h
    subst h
    exact step_refl _ _
  · rw [except_bind_ok] at h
    obtain ⟨s1, h1, h2⟩ := h
    simp only [pure, Except.pure, Except.ok.injEq] at h2
    subst h2
    exact step_emit (tame_enter' h1 (tame_nc_emit_cast_lty_adjust ctx _ _)) _ (by rfl)

/-- `visit_call_realloc` never emits `Cell` rewrites and is tame. -/
theorem tame_nc_visit_call_realloc (ctx : Ctx) (args : List Operand)
    (destination : Place) :
    Tame (fun op => op.is_cell_op = false) (visit_call_realloc ctx args destination) := by
  intro s s' h
  unfold visit_call_realloc at h
  refine tame_enter' h ?_
  intro s s' h
  try simp only [] at h
  split at h
  · simp only [pure, Except.pure, Except.ok.injEq] at h
    subst h
    exact step_refl _ _
  · split at h
    · simp only [pure, Except.pure, Except.ok.injEq] at h
      subst h
      exact step_refl _ _
    · rw [except_bind_ok] at h
      obtain ⟨s1, h1, h2⟩ := h
      have hs1 := tame_enter' h1 (tame_nc_emit_cast_lty_adjust ctx _ _)
      exact step_trans (step_emit hs1 _ (by rfl)) (tame_nc_emit_cast_adjust_lty ctx _ _ _ s' h2)
/-- Kind counts add over list append. -/
theorem count_kind_append (k : RewriteKind) (rs1 rs2 : List (Location × MirRewrite)) :
    count_kind k (rs1 ++ rs2) = count_kind k rs1 + count_kind k rs2 := by
  simp [count_kind, List.countP_append]

/-- Kind count of a single recorded rewrite. -/
theorem count_kind_one (k k' : RewriteKind) (l : Location) (sub : List SubLoc) :
    count_kind k [(l, ⟨k', sub⟩)] = if k' == k then 1 else 0 := by
  simp [count_kind, List.countP_cons]

/-- `emit` adds one rewrite of the emitted kind and none of any other. -/
theorem count_kind_emit (k rw : RewriteKind) (s : VState) :
    count_kind k (s.emit rw).rewrites
      = count_kind k s.rewrites + (if rw == k then 1 else 0) := by
  simp [VState.emit, count_kind_append, count_kind_one]

/-- A step that appends only non-`Cell` kinds preserves the count of any `Cell` kind. -/
theorem step_nc_count (k : RewriteKind) (hk : k.is_cell_op = true) {s s' : VState}
    (h : StepOk (fun op => op.is_cell_op = false) s s') :
    count_kind k s'.rewrites = count_kind k s.rewrites := by
  obtain ⟨-, -, ⟨new, h3, h4⟩, -⟩ := h
  rw [h3, count_kind_append]
  have hz : count_kind k new = 0 := by
    unfold count_kind
    rw [List.countP_eq_zero]
    intro pr hpr
    have h5 := h4 pr hpr
    simp only [beq_iff_eq]
    intro he
    rw [he, hk] at h5
    cases h5
  omega

/-- Closed form of `enter` around a one-rewrite emitter: record the rewrite at the
pushed sub-location and restore the path. -/
theorem enter_emit_eq (sub : SubLoc) (rw : RewriteKind) (s : VState) :
    enter sub (fun s => pure (s.emit rw)) s =
      .ok { s with rewrites := s.rewrites ++ [(s.loc, ⟨rw, s.sub_loc ++ [sub]⟩)] } := by
  unfold enter VState.emit
  simp [Bind.bind, Except.bind, pure, Except.pure, List.dropLast_concat]

/-- Facts about the guarded cell-emit pattern `enter sub (emit rw)` applied after an
optional complex-cell error: path and location restored, exactly the emitted kind
appended once, the suppression flag set when the guard fired and never cleared. -/
theorem enter_emit_ite_facts (sub : SubLoc) (rw : RewriteKind) (c : Bool) (s s' : VState)
    (h : enter sub (fun s => pure (s.emit rw))
        (if c = true then s.err DontRewriteFnReason.COMPLEX_CELL else s) = .ok s') :
    s'.sub_loc = s.sub_loc ∧ s'.loc = s.loc ∧
    (∀ k : RewriteKind,
      count_kind k s'.rewrites = count_kind k s.rewrites + (if rw == k then 1 else 0)) ∧
    (c = true → s'.errors.complex_cell = true) ∧
    (s.errors.complex_cell = true → s'.errors.complex_cell = true) := by
  rw [enter_emit_eq] at h
  simp only [Except.ok.injEq] at h
  subst h
  cases c <;>
    simp [VState.err, VState.emit, count_kind_append, count_kind_one,
      DontRewriteFnReason.insert, DontRewriteFnReason.COMPLEX_CELL]

/-- The CELL-destination stage preserves the path and location and never clears the
complex-cell suppression flag. -/
theorem vs_cell_set_analysis (ctx : Ctx) (pl : Place) (s : VState) :
    (vs_cell_set ctx pl s).sub_loc = s.sub_loc ∧ (vs_cell_set ctx pl s).loc = s.loc ∧
    (s.errors.complex_cell = true → (vs_cell_set ctx pl s).errors.complex_cell = true) := by
  unfold vs_cell_set
  simp only []
  repeat' split
  all_goals
    first
    | exact ⟨rfl, rfl, fun h => h⟩
    | exact ⟨rfl, rfl, fun h => by
        simp [VState.emit, VState.err, DontRewriteFnReason.insert,
          DontRewriteFnReason.COMPLEX_CELL]⟩

/-- When the destination is reached through a non-FIXED pointer classified `Cell`,
the CELL-destination stage emits exactly one `CellSet` and records the complex-cell
suppression reason whenever the access is complex. -/
theorem vs_cell_set_fires (ctx : Ctx) (pl : Place) (s : VState)
    (hg : (pl.is_indirect && (ctx.local_tys pl.local_).ty.is_any_ptr) = true)
    (hf : (ctx.flags (ctx.local_tys pl.local_).label).FIXED = false)
    (hc : (ctx.perms_to_desc (ctx.local_tys pl.local_).ty
        (ctx.perms (ctx.local_tys pl.local_).label)
        (ctx.flags (ctx.local_tys pl.local_).label)).own = Ownership.Cell) :
    count_kind .CellSet (vs_cell_set ctx pl s).rewrites
      = count_kind .CellSet s.rewrites + 1 ∧
    ((pl.projection.length > 1 ||
        (ctx.perms_to_desc (ctx.local_tys pl.local_).ty
          (ctx.perms (ctx.local_tys pl.local_).label)
          (ctx.flags (ctx.local_tys pl.local_).label)).qty != Quantity.Single) = true →
      (vs_cell_set ctx pl s).errors.complex_cell = true) := by
  unfold vs_cell_set
  rw [if_pos hg]
  simp only []
  rw [if_pos (show (!(ctx.flags (ctx.local_tys pl.local_).label).FIXED) = true by
    rw [hf]; rfl)]
  rw [if_pos hc]
  constructor
  · split
    · simp [VState.emit, VState.err, count_kind_append, count_kind_one]
    · simp [count_kind_emit]
  · intro hx
    rw [if_pos hx]
    simp [VState.emit, VState.err, DontRewriteFnReason.insert,
      DontRewriteFnReason.COMPLEX_CELL]

/-- The `CellNew`/`CellGet` stage preserves the path, the location and the `CellSet`
count, and never clears the complex-cell suppression flag. -/
theorem vs_cell_new_get_analysis (ctx : Ctx) (pl : Place) (rv : Rvalue) (s s' : VState)
    (hok : vs_cell_new_get ctx pl rv s = .ok s') :
    s'.sub_loc = s.sub_loc ∧ s'.loc = s.loc ∧
    count_kind .CellSet s'.rewrites = count_kind .CellSet s.rewrites ∧
    (s.errors.complex_cell = true → s'.errors.complex_cell = true) := by
  unfold vs_cell_new_get at hok
  cases rv
  case use rv_op =>
    simp only [] at hok
    split at hok
    all_goals rw [except_bind_ok] at hok
    all_goals obtain ⟨sA, h1, h2⟩ := hok
    case isTrue =>
      obtain ⟨f1, f2, f3, f4, f5⟩ := enter_emit_ite_facts _ _ _ _ _ h1
      have a3 : count_kind .CellSet sA.rewrites = count_kind .CellSet s.rewrites := by
        rw [f3 .CellSet]
        simp
      split at h2
      case h_1 =>
        split at h2
        case isTrue =>
          split at h2
          case isTrue =>
            obtain ⟨e1, e2, e3, e4, e5⟩ := enter_emit_ite_facts _ _ _ _ _ h2
            refine ⟨e1.trans f1, e2.trans f2, ?_, fun h => e5 (f5 h)⟩
            rw [e3 .CellSet]
            simp [a3]
          case isFalse =>
            simp only [pure, Except.pure, Except.ok.injEq] at h2
            subst h2
            exact ⟨f1, f2, a3, f5⟩
        case isFalse =>
          simp only [pure, Except.pure, Except.ok.injEq] at h2
          subst h2
          exact ⟨f1, f2, a3, f5⟩
      case h_2 =>
        simp only [pure, Except.pure, Except.ok.injEq] at h2
        subst h2
        exact ⟨f1, f2, a3, f5⟩
    case isFalse =>
      simp only [pure, Except.pure, Except.ok.injEq] at h1
      subst h1
      split at h2
      case h_1 =>
        split at h2
        case isTrue =>
          split at h2
          case isTrue =>
            obtain ⟨e1, e2, e3, e4, e5⟩ := enter_emit_ite_facts _ _ _ _ _ h2
            refine ⟨e1, e2, ?_, e5⟩
            rw [e3 .CellSet]
            simp
          case isFalse =>
            simp only [pure, Except.pure, Except.ok.injEq] at h2
            subst h2
            exact ⟨rfl, rfl, rfl, fun h => h⟩
        case isFalse =>
          simp only [pure, Except.pure, Except.ok.injEq] at h2
          subst h2
          exact ⟨rfl, rfl, rfl, fun h => h⟩
      case h_2 =>
        simp only [pure, Except.pure, Except.ok.injEq] at h2
        subst h2
        exact ⟨rfl, rfl, rfl, fun h => h⟩
  all_goals
    simp only [pure, Except.pure, Except.ok.injEq] at hok
  all_goals subst hok
  all_goals exact ⟨rfl, rfl, rfl, fun h => h⟩

/-- When the value-expression is a direct read through a non-FIXED CELL-flagged
pointer, the `CellNew`/`CellGet` stage emits exactly one `CellGet` and records the
complex-cell suppression reason whenever the access is complex. -/
theorem vs_cell_new_get_fires (ctx : Ctx) (pl : Place) (rv_op : Operand)
    (rv_place : Place) (s s' : VState)
    (hpl : rv_op.place = some rv_place)
    (hg : (rv_place.is_indirect && (ctx.local_tys rv_place.local_).ty.is_any_ptr) = true)
    (hf : (ctx.flags (ctx.local_tys rv_place.local_).label).FIXED = false)
    (hcell : (ctx.flags (ctx.local_tys rv_place.local_).label).CELL = true)
    (hok : vs_cell_new_get ctx pl (.use rv_op) s = .ok s') :
    count_kind .CellGet s'.rewrites = count_kind .CellGet s.rewrites + 1 ∧
    ((pl.projection.length > 1 ||
        (ctx.local_perms_to_desc (ctx.local_tys pl.local_).ty
          (ctx.perms (ctx.addr_of_local pl.local_))
          (ctx.flags (ctx.addr_of_local pl.local_))).qty != Quantity.Single) = true →
      s'.errors.complex_cell = true) := by
  unfold vs_cell_new_get at hok
  simp only [] at hok
  split at hok
  · rw [except_bind_ok] at hok
    obtain ⟨sA, h1, h2⟩ := hok
    obtain ⟨f1, f2, f3, f4, f5⟩ := enter_emit_ite_facts _ _ _ _ _ h1
    have hA : count_kind .CellGet sA.rewrites = count_kind .CellGet s.rewrites := by
      rw [f3 .CellGet]
      simp
    simp only [hpl] at h2
    rw [if_pos hg] at h2
    rw [if_pos (show (!(ctx.flags (ctx.local_tys rv_place.local_).label).FIXED &&
        (ctx.flags (ctx.local_tys rv_place.local_).label).CELL) = true by
      rw [hf, hcell]; rfl)] at h2
    obtain ⟨e1, e2, e3, e4, e5⟩ := enter_emit_ite_facts _ _ _ _ _ h2
    constructor
    · rw [e3 .CellGet]
      simp [hA]
    · exact e4
  · rw [except_bind_ok] at hok
    obtain ⟨sA, h1, h2⟩ := hok
    simp only [pure, Except.pure, Except.ok.injEq] at h1
    subst h1
    simp only [hpl] at h2
    rw [if_pos hg] at h2
    rw [if_pos (show (!(ctx.flags (ctx.local_tys rv_place.local_).label).FIXED &&
        (ctx.flags (ctx.local_tys rv_place.local_).label).CELL) = true by
      rw [hf, hcell]; rfl)] at h2
    obtain ⟨e1, e2, e3, e4, e5⟩ := enter_emit_ite_facts _ _ _ _ _ h2
    constructor
    · rw [e3 .CellGet]
      simp
    · exact e4

/-- Decomposition of a successful assign-statement visit into its three stages: the
cell stages, then a tame right-hand-side stage, then a tame destination walk. -/
theorem visit_statement_assign_chain (ctx : Ctx) (pl : Place) (rv : Rvalue)
    (loc : Location) (s s' : VState)
    (hok : visit_statement ctx (.assign pl rv) loc s = .ok s') :
    ∃ sA sB,
      vs_cell_new_get ctx pl rv (vs_cell_set ctx pl { s with loc := loc }) = .ok sA ∧
      StepOk (fun op => op.is_cell_op = false) sA sB ∧
      StepOk (fun op => op.is_cell_op = false) sB s' := by
  unfold visit_statement at hok
  simp only [] at hok
  rw [except_bind_ok] at hok
  obtain ⟨sA, h1, h2⟩ := hok
  rw [except_bind_ok] at h2
  obtain ⟨sB, h3, h4⟩ := h2
  exact ⟨sA, sB, h1, tame_enter' h3 (tame_nc_vs_rhs ctx pl rv _ _),
    tame_enter' h4 (tame_nc_visit_place ctx pl .Mut)⟩

/-- A successful statement visit restores the sub-location path. -/
theorem visit_statement_sub_loc (ctx : Ctx) (stmt : StatementKind) (loc : Location)
    (s s' : VState) (hok : visit_statement ctx stmt loc s = .ok s') :
    s'.sub_loc = s.sub_loc := by
  cases stmt
  case assign pl rv =>
    obtain ⟨sA, sB, h1, h2, h3⟩ := visit_statement_assign_chain ctx pl rv loc s s' hok
    have e0 := (vs_cell_set_analysis ctx pl { s with loc := loc }).1
    have e1 := (vs_cell_new_get_analysis ctx pl rv _ _ h1).1
    rw [h3.1, h2.1, e1, e0]
  case setDiscriminant => exact Except.noConfusion hok
  case copyNonOverlapping => exact Except.noConfusion hok
  all_goals
    simp only [visit_statement, pure, Except.pure, Except.ok.injEq] at hok
  all_goals subst hok
  all_goals rfl

/-- A successful terminator visit restores the sub-location path. -/
theorem visit_terminator_sub_loc (ctx : Ctx) (term : TerminatorKind) (loc : Location)
    (s s' : VState) (hok : visit_terminator ctx term loc s = .ok s') :
    s'.sub_loc = s.sub_loc := by
  cases term
  case inlineAsm => exact Except.noConfusion hok
  case call callee args destination =>
    unfold visit_terminator at hok
    simp only [] at hok
    cases callee
    all_goals
      first
      | (simp only [pure, Except.pure, Except.ok.injEq] at hok; subst hok; rfl)
      | exact (tame_nc_visit_ptr_offset _ _ _ _ _ hok).1
      | exact (tame_nc_visit_slice_as_ptr _ _ _ _ _ _ hok).1
      | exact (tame_nc_visit_call_local_def _ _ _ _ _ _ hok).1
      | exact (tame_nc_visit_call_memcpy _ _ _ _ _ hok).1
      | exact (tame_nc_visit_call_memset _ _ _ _ _ hok).1
      | exact (tame_nc_visit_call_is_null _ _ _ _ hok).1
      | exact (tame_nc_visit_call_null _ _ _ _ hok).1
      | exact (tame_nc_visit_call_malloc_calloc _ _ _ _ _ hok).1
      | exact (tame_nc_visit_call_free _ _ _ _ hok).1
      | exact (tame_nc_visit_call_realloc _ _ _ _ _ hok).1
  all_goals
    simp only [visit_terminator, pure, Except.pure, Except.ok.injEq] at hok
  all_goals subst hok
  all_goals rfl
/-- The CELL-destination stage emits only `CellSet`, preserving every other count. -/
theorem vs_cell_set_count_other (ctx : Ctx) (pl : Place) (s : VState) (k : RewriteKind)
    (hk : (RewriteKind.CellSet == k) = false) :
    count_kind k (vs_cell_set ctx pl s).rewrites = count_kind k s.rewrites := by
  unfold vs_cell_set
  simp only []
  repeat' split
  all_goals try rfl
  all_goals rw [count_kind_emit]
  all_goals simp only [hk, Bool.false_eq_true, if_false, Nat.add_zero]
  all_goals try rfl

/-- C2 (amended): for every successfully visited assignment whose destination is
reached through a non-exempt (non-FIXED) pointer classified shared-mutable-cell, the
walker emits exactly one cell-write (`CellSet`) rewrite - also when the access goes
through more than one level of projection or the pointer's multiplicity is not
single; in that complex case it additionally records the complex-cell suppression
reason (the rewrite itself is not skipped).  Symmetrically, when the value-expression
is a direct read through a non-exempt CELL-flagged pointer, exactly one cell-read
(`CellGet`) rewrite is emitted, with the suppression reason recorded under the same
complexity guard (measured on the destination's projection and the destination
local's multiplicity). -/
theorem c2_cell_rewrites (ctx : Ctx) (pl : Place) (rv : Rvalue) (loc : Location)
    (s s' : VState)
    (hok : visit_statement ctx (.assign pl rv) loc s = .ok s') :
    (((pl.is_indirect && (ctx.local_tys pl.local_).ty.is_any_ptr) = true →
      (ctx.flags (ctx.local_tys pl.local_).label).FIXED = false →
      (ctx.perms_to_desc (ctx.local_tys pl.local_).ty
        (ctx.perms (ctx.local_tys pl.local_).label)
        (ctx.flags (ctx.local_tys pl.local_).label)).own = Ownership.Cell →
      count_kind .CellSet s'.rewrites = count_kind .CellSet s.rewrites + 1 ∧
      ((pl.projection.length > 1 ||
          (ctx.perms_to_desc (ctx.local_tys pl.local_).ty
            (ctx.perms (ctx.local_tys pl.local_).label)
            (ctx.flags (ctx.local_tys pl.local_).label)).qty != Quantity.Single) = true →
        s'.errors.complex_cell = true)) ∧
     (∀ (rv_op : Operand) (rv_place : Place), rv = .use rv_op →
      rv_op.place = some rv_place →
      (rv_place.is_indirect && (ctx.local_tys rv_place.local_).ty.is_any_ptr) = true →
      (ctx.flags (ctx.local_tys rv_place.local_).label).FIXED = false →
      (ctx.flags (ctx.local_tys rv_place.local_).label).CELL = true →
      count_kind .CellGet s'.rewrites = count_kind .CellGet s.rewrites + 1 ∧
      ((pl.projection.length > 1 ||
          (ctx.local_perms_to_desc (ctx.local_tys pl.local_).ty
            (ctx.perms (ctx.addr_of_local pl.local_))
            (ctx.flags (ctx.addr_of_local pl.local_))).qty != Quantity.Single) = true →
        s'.errors.complex_cell = true))) := by
  obtain ⟨sA, sB, h1, h2, h3⟩ := visit_statement_assign_chain ctx pl rv loc s s' hok
  have hBset := step_nc_count .CellSet rfl h2
  have hCset := step_nc_count .CellSet rfl h3
  have hBget := step_nc_count .CellGet rfl h2
  have hCget := step_nc_count .CellGet rfl h3
  have herrB := h2.2.2.2
  have herrC := h3.2.2.2
  obtain ⟨a1, a2, a3, a4⟩ := vs_cell_new_get_analysis ctx pl rv _ _ h1
  constructor
  · intro hg hf hc
    obtain ⟨f1, f2⟩ := vs_cell_set_fires ctx pl { s with loc := loc } hg hf hc
    constructor
    · rw [hCset, hBset, a3, f1]
    · intro hx
      rw [herrC, herrB]
      exact a4 (f2 hx)
  · intro rv_op rv_place hrv hplace hg hf hcell
    subst hrv
    obtain ⟨g1, g2⟩ := vs_cell_new_get_fires ctx pl rv_op rv_place _ _ hplace hg hf hcell h1
    constructor
    · rw [hCget, hBget, g1, vs_cell_set_count_other ctx pl _ .CellGet rfl]
    · intro hx
      rw [herrC, herrB]
      exact g2 hx

/-- Counterexample for C2: the assignment `*x = 2` under a context classifying `x`
as a shared-mutable-cell slice pointer.  The access is complex (multiplicity is not
single), so the claim says the walker records the suppression reason and emits no
cell-write rewrite; instead the code records the reason AND still emits `CellSet`. -/
theorem c2_counterexample :
    visit_statement cellCtx cellStmt ⟨0, 0⟩ vs0 =
      .ok ⟨⟨0, 0⟩, [], [(⟨0, 0⟩, ⟨.CellSet, []⟩)], ⟨true⟩⟩ := rfl

/-- Witness for C2 at a concrete scenario: `*x = *y` under a CELL-flagged context
yields exactly one `CellSet`, exactly one `CellGet`, and the recorded reason. -/
theorem c2_cell_rewrites_witness :
    count_kind .CellSet c2res.rewrites = count_kind .CellSet vs0.rewrites + 1 ∧
    count_kind .CellGet c2res.rewrites = count_kind .CellGet vs0.rewrites + 1 ∧
    c2res.errors.complex_cell = true := by
  have h := c2_cell_rewrites cellGetCtx ⟨0, [.deref]⟩ (.use (.copy ⟨1, [.deref]⟩)) ⟨0, 0⟩
    vs0 c2res rfl
  exact ⟨(h.1 rfl rfl rfl).1,
    (h.2 (.copy ⟨1, [.deref]⟩) ⟨1, [.deref]⟩ rfl rfl rfl rfl rfl).1,
    (h.1 rfl rfl rfl).2 rfl⟩

/-- C9: the sub-location path is maintained by strictly scoped push/pop - `enter`
restores the caller's path whenever its body preserves its own - and it is empty at
the start and at the end of every successful statement and terminator visit. -/
theorem c9_sub_loc_invariant :
    (∀ (sub : SubLoc) (f : VState → Except String VState),
      (∀ s s', f s = .ok s' → s'.sub_loc = s.sub_loc) →
      ∀ s s', enter sub f s = .ok s' → s'.sub_loc = s.sub_loc) ∧
    (∀ (ctx : Ctx) (stmt : StatementKind) (loc : Location) (s s' : VState),
      s.sub_loc = [] → visit_statement ctx stmt loc s = .ok s' → s'.sub_loc = []) ∧
    (∀ (ctx : Ctx) (term : TerminatorKind) (loc : Location) (s s' : VState),
      s.sub_loc = [] → visit_terminator ctx term loc s = .ok s' → s'.sub_loc = []) := by
  refine ⟨?_, ?_, ?_⟩
  · intro sub f hf s s' h
    unfold enter at h
    rw [except_bind_ok] at h
    obtain ⟨s2, h2, h3⟩ := h
    simp only [pure, Except.pure, Except.ok.injEq] at h3
    subst h3
    simp [hf _ _ h2, List.dropLast_concat]
  · intro ctx stmt loc s s' he hok
    rw [visit_statement_sub_loc ctx stmt loc s s' hok, he]
  · intro ctx term loc s s' he hok
    rw [visit_terminator_sub_loc ctx term loc s s' hok, he]

/-- Witness for C9 at a concrete scenario: a `p.is_null()` call terminator visit
starts and ends with an empty sub-location path. -/
theorem c9_sub_loc_invariant_witness :
    vs0.sub_loc = [] ∧ c9res.sub_loc = [] ∧
    visit_terminator cellCtx isNullTerm ⟨0, 0⟩ vs0 = .ok c9res :=
  ⟨rfl, c9_sub_loc_invariant.2.2 cellCtx isNullTerm ⟨0, 0⟩ vs0 c9res rfl rfl, rfl⟩
